import Mathlib

/-!
# FuzzLSP: document/diagnostic lifecycle engine and notification framing

A shallow embedding of `src/lspserver/server.go`, `src/lspserver/backend.go` and
`vendor/go-lsp/jsonrpc/conn.go`.

* Go strings and byte slices are lists of bytes (`GoString`); `+` is `++`, `len` is
  `List.length`.
* A Go `error` is `Option GoError` (`none` is `nil`); a `(value, error)` result whose value
  is only read when the error is `nil` is an `Except`.
* The server is a value of `lspServer`; every handler takes the server and returns its result
  together with the updated server.
* Everything the handlers call but do not implement (the backend, the prompt file, the
  diagnostic parser, the file system, the JSON encoder, the output stream) is an oracle in
  `Env`. Each call is appended to the server's `trace`, and an oracle whose answer may change
  from call to call receives the number of earlier calls of the same kind.
* Logging (`logs.Printf`, `fmt.Println`) has no effect on results and is left out.
-/

namespace FuzzLSP

/-! ## Go values -/

/-- A Go `string` (or `[]byte`): a finite sequence of bytes. -/
abbrev GoString := List UInt8

/-- The bytes of a string literal of the source (its UTF-8 encoding). -/
def lit (s : String) : GoString := s.data.flatMap String.utf8EncodeChar

/-- A Go `error` value, identified by its message. -/
abbrev GoError := String

/-- Conversion `uint(i)` of a Go `int` on a 64-bit platform. -/
def toUint (i : Int) : Nat := (i % 2 ^ 64).toNat

/-- The largest Go `int` on a 64-bit platform. -/
def maxInt : Int := 2 ^ 63 - 1

/-! ## Data model -/

/-- The diagnostic record of the server. Its declaration is not among the sources; the fields
are the ones the handlers of `server.go` read. -/
structure LspDiagnostic where
  LineNumber : Int
  Severity : GoString
  Source : GoString
  Rule : GoString
  Description : GoString
deriving DecidableEq, Repr

/-- Modelled from the spec: the `Document` of the document store (section 3 of the spec), whose
declaration is not among the sources: current text, most recent raw analysis text, ordered
list of diagnostics. -/
structure Document where
  text : GoString
  analysis : GoString
  diagnostics : List LspDiagnostic
deriving DecidableEq, Repr

/-- Modelled from the spec: the document store `LspDocuments`, a mapping from document
identity to document; its implementation is not among the sources. -/
abbrev LspDocuments := GoString → Option Document

/-- Modelled from the spec: `NewLspDocuments`, the empty store. -/
def NewLspDocuments : LspDocuments := fun _ => none

/-- Modelled from the spec: `store(identity, text)` inserts or overwrites the document's text
and returns an error if an identical `(identity, text)` pair was already the last stored
value (section 4.3). A new document has no analysis text and no diagnostics. -/
def LspDocuments.Store (docs : LspDocuments) (uri text : GoString) :
    Option GoError × LspDocuments :=
  match docs uri with
  | some d =>
    if d.text = text then (some "document already stored", docs)
    else (none, Function.update docs uri (some { d with text := text }))
  | none =>
    (none, Function.update docs uri (some { text := text, analysis := [], diagnostics := [] }))

/-- Modelled from the spec: `storeAnalysis(identity, rawAnalysisText)` records the latest raw
analysis text; fails with unknown-document if the identity was never stored. -/
def LspDocuments.StoreAnalysis (docs : LspDocuments) (uri analysis : GoString) :
    Option GoError × LspDocuments :=
  match docs uri with
  | some d => (none, Function.update docs uri (some { d with analysis := analysis }))
  | none => (some "unknown document", docs)

/-- Modelled from the spec: `updateDiagnostics(identity, diagnostics)` replaces the diagnostic
list; fails with unknown-document if the identity was never stored. -/
def LspDocuments.UpdateDiagnostics (docs : LspDocuments) (uri : GoString)
    (diagnostics : List LspDiagnostic) : Option GoError × LspDocuments :=
  match docs uri with
  | some d => (none, Function.update docs uri (some { d with diagnostics := diagnostics }))
  | none => (some "unknown document", docs)

/-- Modelled from the spec: `getDiagnostics(identity)` returns the current diagnostic list;
fails with unknown-document if the identity was never stored. -/
def LspDocuments.GetDiagnostics (docs : LspDocuments) (uri : GoString) :
    Except GoError (List LspDiagnostic) :=
  match docs uri with
  | some d => .ok d.diagnostics
  | none => .error "unknown document"

/-! ## Calls to collaborators -/

/-- One call made by the server to a collaborator, with its arguments. -/
inductive Event where
  | Store (uri text : GoString)
  | StoreAnalysis (uri analysis : GoString)
  | UpdateDiagnostics (uri : GoString) (diagnostics : List LspDiagnostic)
  | GetDiagnostics (uri : GoString)
  | AnalyseDocument (uri text : GoString)
  | LoadPrompt (path : GoString)
  | ReadFile (path : GoString)
  | Write (writer : Nat) (p : GoString)
  | CompleteCode (uri pfx systemPrompt : GoString)
  | GenerateCode (uri pfx suffix systemPrompt : GoString)
  | RefactorCodeLine (line : GoString)
  | ExplainCodeIssue (line : GoString)
  | ReaderClose (reader : Nat)
  | WriterClose (writer : Nat)
deriving DecidableEq, Repr

/-- The arguments of the event if it is a call of the backend's `AnalyseDocument`. -/
def Event.analyseArgs : Event → Option (GoString × GoString)
  | .AnalyseDocument uri text => some (uri, text)
  | _ => none

/-- The `(uri, text)` arguments of the backend `AnalyseDocument` calls of a trace, in order. -/
def analyseCalls (t : List Event) : List (GoString × GoString) := t.filterMap Event.analyseArgs

/-- The arguments of the event if it is a `StoreAnalysis` call. -/
def Event.storeAnalysisArgs : Event → Option (GoString × GoString)
  | .StoreAnalysis uri analysis => some (uri, analysis)
  | _ => none

/-- The `(uri, payload)` arguments of the `StoreAnalysis` calls of a trace, in order. -/
def storeAnalysisCalls (t : List Event) : List (GoString × GoString) :=
  t.filterMap Event.storeAnalysisArgs

/-- The arguments of the event if it is an `UpdateDiagnostics` call. -/
def Event.updateDiagnosticsArgs : Event → Option (GoString × List LspDiagnostic)
  | .UpdateDiagnostics uri ds => some (uri, ds)
  | _ => none

/-- The `(uri, diagnostics)` arguments of the `UpdateDiagnostics` calls of a trace, in order. -/
def updateDiagnosticsCalls (t : List Event) : List (GoString × List LspDiagnostic) :=
  t.filterMap Event.updateDiagnosticsArgs

/-- The path of the event if it is a `LoadPrompt` call. -/
def Event.loadPromptArg : Event → Option GoString
  | .LoadPrompt path => some path
  | _ => none

/-- The paths of the `LoadPrompt` calls of a trace, in order. -/
def loadPromptCalls (t : List Event) : List GoString := t.filterMap Event.loadPromptArg

/-- The path of the event if it is a file read. -/
def Event.readFileArg : Event → Option GoString
  | .ReadFile path => some path
  | _ => none

/-- The paths of the file reads of a trace, in order. -/
def readFileCalls (t : List Event) : List GoString := t.filterMap Event.readFileArg

/-- The bytes of the event if it is a `Write` on a stream. -/
def Event.writeArg : Event → Option (Nat × GoString)
  | .Write writer p => some (writer, p)
  | _ => none

/-- The `(writer, bytes)` arguments of the `Write` calls of a trace, in order. -/
def writeCalls (t : List Event) : List (Nat × GoString) := t.filterMap Event.writeArg

/-- The uri written to if the event writes a document store entry. -/
def Event.storeWriteUri : Event → Option GoString
  | .Store uri _ => some uri
  | .StoreAnalysis uri _ => some uri
  | .UpdateDiagnostics uri _ => some uri
  | _ => none

/-- The uris of the document store entries written by the calls of a trace, in order. -/
def storeWriteUris (t : List Event) : List GoString := t.filterMap Event.storeWriteUri

/-- The arguments of the event if it is a call of the backend's `CompleteCode`. -/
def Event.completeCodeArgs : Event → Option (GoString × GoString × GoString)
  | .CompleteCode uri pfx systemPrompt => some (uri, pfx, systemPrompt)
  | _ => none

/-- The `(uri, prefix, systemPrompt)` arguments of the backend `CompleteCode` calls of a trace,
in order. -/
def completeCodeCalls (t : List Event) : List (GoString × GoString × GoString) :=
  t.filterMap Event.completeCodeArgs

/-- The arguments of the event if it is a call of the backend's `GenerateCode`. -/
def Event.generateCodeArgs : Event → Option (GoString × GoString × GoString × GoString)
  | .GenerateCode uri pfx suffix systemPrompt => some (uri, pfx, suffix, systemPrompt)
  | _ => none

/-- The `(uri, prefix, suffix, systemPrompt)` arguments of the backend `GenerateCode` calls of a
trace, in order. -/
def generateCodeCalls (t : List Event) : List (GoString × GoString × GoString × GoString) :=
  t.filterMap Event.generateCodeArgs

/-- The line of the event if it is a call of the backend's `RefactorCodeLine`. -/
def Event.refactorArg : Event → Option GoString
  | .RefactorCodeLine line => some line
  | _ => none

/-- The arguments of the backend `RefactorCodeLine` calls of a trace, in order. -/
def refactorCalls (t : List Event) : List GoString := t.filterMap Event.refactorArg

/-- The line of the event if it is a call of the backend's `ExplainCodeIssue`. -/
def Event.explainArg : Event → Option GoString
  | .ExplainCodeIssue line => some line
  | _ => none

/-- The arguments of the backend `ExplainCodeIssue` calls of a trace, in order. -/
def explainCalls (t : List Event) : List GoString := t.filterMap Event.explainArg

/-- Whether the event is a call of a backend method. -/
def Event.isBackendCall : Event → Bool
  | .AnalyseDocument _ _ => true
  | .CompleteCode _ _ _ => true
  | .GenerateCode _ _ _ _ => true
  | .RefactorCodeLine _ => true
  | .ExplainCodeIssue _ => true
  | _ => false

/-- The backend calls of a trace, in order. -/
def backendCalls (t : List Event) : List Event := t.filter Event.isBackendCall

/-- The handle of the event if it is a `Close` of a reader. -/
def Event.readerCloseArg : Event → Option Nat
  | .ReaderClose reader => some reader
  | _ => none

/-- The readers closed by the calls of a trace, in order. -/
def readerCloseCalls (t : List Event) : List Nat := t.filterMap Event.readerCloseArg

/-- The handle of the event if it is a `Close` of a writer. -/
def Event.writerCloseArg : Event → Option Nat
  | .WriterClose writer => some writer
  | _ => none

/-- The writers closed by the calls of a trace, in order. -/
def writerCloseCalls (t : List Event) : List Nat := t.filterMap Event.writerCloseArg

/-! ## Collaborators -/

/-- The interface `LspBackend` of `backend.go`. The first argument of each method is the number
of calls of that method made before. -/
structure LspBackend where
  Start : Option GoError
  AnalyseDocument : Nat → GoString → GoString → Except GoError GoString
  CompleteCode : Nat → GoString → GoString → GoString → Except GoError (List GoString)
  GenerateCode : Nat → GoString → GoString → GoString → GoString → Except GoError GoString
  RefactorCodeLine : Nat → GoString → Except GoError GoString
  ExplainCodeIssue : Nat → GoString → Except GoError GoString

/-- The message `NotificationMessage` handed to the JSON encoder by `Conn.Notify`; `Params` is
`none` while unset. -/
structure NotificationMessage where
  Jsonrpc : GoString
  Method : GoString
  Params : Option GoString
deriving DecidableEq, Repr

/-- The two uses of `jsoniter.Marshal` in `Conn.Notify`, for payloads of type `Payload`. -/
structure Jsoniter (Payload : Type) where
  MarshalParams : Payload → Except GoError GoString
  MarshalMessage : NotificationMessage → Except GoError GoString

/-- The url value returned by `url.Parse`; only `Path` is read. -/
structure URL where
  Path : GoString
deriving DecidableEq, Repr

/-- Everything outside `server.go` and `conn.go` that the handlers call. -/
structure Env where
  /-- The field `backend` of the server -/
  backend : LspBackend
  /-- The diagnostic parser `DiagnosticsUnmarshal(uri, analysis)` -/
  DiagnosticsUnmarshal : GoString → GoString → Except GoError (List LspDiagnostic)
  /-- The bytes and the error returned by `LoadPrompt(path)` at its n-th call -/
  LoadPrompt : Nat → GoString → GoString × Option GoError
  /-- The value of `*ParamRetryPromptFile` -/
  ParamRetryPromptFile : GoString
  /-- The renderer `DiagnosticToPrettyText` -/
  DiagnosticToPrettyText : LspDiagnostic → GoString
  /-- The string and the error returned by the renderer `DiagnosticToJsonMarkup` -/
  DiagnosticToJsonMarkup : LspDiagnostic → GoString × Option GoError
  /-- The library function `url.Parse` -/
  urlParse : GoString → Except GoError URL
  /-- The result of `ioutil.ReadFile(path)` at the n-th read -/
  ReadFile : Nat → GoString → Except GoError GoString
  /-- The JSON encoder used for notifications -/
  jsoniter : Jsoniter GoString
  /-- The error returned by the n-th `Write` on a stream -/
  Write : Nat → Nat → GoString → Option GoError
  /-- The error returned by the n-th `Close` of a reader -/
  ReaderClose : Nat → Nat → Option GoError
  /-- The error returned by the n-th `Close` of a writer -/
  WriterClose : Nat → Nat → Option GoError

/-! ## The connection (`conn.go`) -/

/-- The struct `Conn`: a reader and a writer, each an external stream named by a handle. -/
structure Conn where
  reader : Nat
  writer : Nat
deriving DecidableEq, Repr

/-- The method `Conn.Write`: one `Write` on the writer of the connection. -/
def Conn.Write (write : Nat → Nat → GoString → Option GoError) (c : Conn) (p : GoString)
    (t : List Event) : Option GoError × List Event :=
  (write (writeCalls t).length c.writer p, t ++ [Event.Write c.writer p])

/-- The decimal digits printed by `%d` for a length. -/
def decimal (n : Nat) : GoString := lit (toString n)

/-- The method `Conn.Notify`; `params` is `none` for a nil payload. -/
def Conn.Notify {Payload : Type} (json : Jsoniter Payload)
    (write : Nat → Nat → GoString → Option GoError) (s : Conn) (method : GoString)
    (params : Option Payload) (t : List Event) : Option GoError × List Event :=
  let notifyMsg : NotificationMessage := { Jsonrpc := lit "2.0", Method := method, Params := none }
  let marshalled : Except GoError NotificationMessage :=
    match params with
    | none => .ok notifyMsg
    | some p =>
      match json.MarshalParams p with
      | .error err => .error err
      | .ok jsonParams => .ok { notifyMsg with Params := some jsonParams }
  match marshalled with
  | .error err => (some err, t)
  | .ok notifyMsg =>
    match json.MarshalMessage notifyMsg with
    | .error err => (some err, t)
    | .ok notifyData =>
      let totalLen := notifyData.length
      let header := lit "Content-Length: " ++ decimal totalLen ++ lit "\r\n\r\n"
      let message := header ++ notifyData
      match s.Write write message t with
      | (some err, t) => (some err, t)
      | (none, t) => (none, t)

/-! ## The server (`server.go`) -/

/-- The struct `lspServer`: its name, its document store and its connection (`none` is `nil`),
together with the calls made so far and the store contents left by each store write so far
(the states of the store a concurrent reader can observe). -/
structure lspServer where
  name : GoString
  documents : LspDocuments
  conn : Option Conn
  trace : List Event
  observed : List LspDocuments

/-- The call `l.documents.Store(uri, text)`. -/
def lspServer.Store (l : lspServer) (uri text : GoString) : Option GoError × lspServer :=
  let r := l.documents.Store uri text
  (r.1, { l with documents := r.2, trace := l.trace ++ [Event.Store uri text],
                 observed := l.observed ++ [r.2] })

/-- The call `l.documents.StoreAnalysis(uri, analysis)`. -/
def lspServer.StoreAnalysis (l : lspServer) (uri analysis : GoString) :
    Option GoError × lspServer :=
  let r := l.documents.StoreAnalysis uri analysis
  (r.1, { l with documents := r.2, trace := l.trace ++ [Event.StoreAnalysis uri analysis],
                 observed := l.observed ++ [r.2] })

/-- The call `l.documents.UpdateDiagnostics(uri, diagnostics)`. -/
def lspServer.UpdateDiagnostics (l : lspServer) (uri : GoString)
    (diagnostics : List LspDiagnostic) : Option GoError × lspServer :=
  let r := l.documents.UpdateDiagnostics uri diagnostics
  (r.1, { l with documents := r.2, trace := l.trace ++ [Event.UpdateDiagnostics uri diagnostics],
                 observed := l.observed ++ [r.2] })

/-- The call `l.documents.GetDiagnostics(uri)`. -/
def lspServer.GetDiagnostics (l : lspServer) (uri : GoString) :
    Except GoError (List LspDiagnostic) × lspServer :=
  (l.documents.GetDiagnostics uri, { l with trace := l.trace ++ [Event.GetDiagnostics uri] })

/-- The call `l.backend.AnalyseDocument(uri, text)`. -/
def lspServer.AnalyseDocument (env : Env) (l : lspServer) (uri text : GoString) :
    Except GoError GoString × lspServer :=
  (env.backend.AnalyseDocument (analyseCalls l.trace).length uri text,
   { l with trace := l.trace ++ [Event.AnalyseDocument uri text] })

/-- The call `LoadPrompt(*ParamRetryPromptFile)`. -/
def lspServer.LoadPrompt (env : Env) (l : lspServer) : (GoString × Option GoError) × lspServer :=
  (env.LoadPrompt (loadPromptCalls l.trace).length env.ParamRetryPromptFile,
   { l with trace := l.trace ++ [Event.LoadPrompt env.ParamRetryPromptFile] })

/-- The constant `maxRetries` of `updateDocumentStore`. -/
def maxRetries : Nat := 5

/-- How the `for` loop of `updateDocumentStore` is left: by a `return err` inside the body, or
by `break` or a false loop condition, with the values of `err` and `diagnostics` at that
point. -/
inductive LoopExit where
  | returned (err : Option GoError)
  | done (err : Option GoError) (diagnostics : List LspDiagnostic)
deriving DecidableEq, Repr

/-- The loop `for attempts := 1; attempts <= maxRetries; attempts++` of `updateDocumentStore`.
The first argument is `maxRetries + 1 - attempts`, the number of values of `attempts` still
to be tried, so that `attempts = maxRetries - rem` in the body and the loop condition is
false exactly at `0`. The other arguments are the variables `instruction`, `err` and
`diagnostics` on entry to the iteration; after a failed parse `diagnostics` is the empty
list returned with the error. -/
def lspServer.analysisLoop (env : Env) (uri text : GoString) :
    Nat → GoString → Option GoError → List LspDiagnostic → lspServer → LoopExit × lspServer
  | 0, _, err, diagnostics, l => (.done err diagnostics, l)
  | rem + 1, instruction, _, _, l =>
    let attempts := maxRetries - rem
    match l.AnalyseDocument env uri (instruction ++ text) with
    | (.error err, l) => (.returned (some err), l)
    | (.ok analysis, l) =>
      match l.StoreAnalysis uri analysis with
      | (some err, l) => (.returned (some err), l)
      | (none, l) =>
        match env.DiagnosticsUnmarshal uri analysis with
        | .error err =>
          if attempts < maxRetries then
            match l.LoadPrompt env with
            | ((temp, err), l) => lspServer.analysisLoop env uri text rem temp err [] l
          else (.returned (some err), l)
        | .ok diagnostics => (.done none diagnostics, l)

/-- The method `updateDocumentStore(uri, text)`. -/
def lspServer.updateDocumentStore (env : Env) (l : lspServer) (uri text : GoString) :
    Option GoError × lspServer :=
  match l.Store uri text with
  | (some _, l) => (none, l)
  | (none, l) =>
    match lspServer.analysisLoop env uri text maxRetries [] none [] l with
    | (.returned err, l) => (err, l)
    | (.done (some err) _, l) => (some err, l)
    | (.done none diagnostics, l) =>
      match l.UpdateDiagnostics uri diagnostics with
      | (some err, l) => (some err, l)
      | (none, l) => (none, l)

/-- The method `NotifyGeneratedCode(ctx, generatedCode, notificationMethod)`. -/
def lspServer.NotifyGeneratedCode (env : Env) (s : lspServer)
    (generatedCode notificationMethod : GoString) : Option GoError × lspServer :=
  match s.conn with
  | none => (some "connection is nil, cannot send notification", s)
  | some conn =>
    match conn.Notify env.jsoniter env.Write notificationMethod (some generatedCode) s.trace with
    | (some err, t) =>
      (some ("failed to send generated code notification: " ++ err), { s with trace := t })
    | (none, t) => (none, { s with trace := t })

/-- The library function `strings.HasPrefix`. -/
def stringsHasPrefix (s pre : GoString) : Bool := pre.isPrefixOf s

/-- The library function `strings.Contains`. -/
def stringsContains : GoString → GoString → Bool
  | [], substr => substr.isEmpty
  | c :: cs, substr => substr.isPrefixOf (c :: cs) || stringsContains cs substr

/-- The library function `strings.Replace(s, old, new, 1)`: the first occurrence of `old` in
`s` replaced by `new`. -/
def stringsReplaceFirst : GoString → GoString → GoString → GoString
  | [], old, new => if old.isEmpty then new else []
  | c :: cs, old, new =>
    if old.isPrefixOf (c :: cs) then new ++ (c :: cs).drop old.length
    else c :: stringsReplaceFirst cs old new

/-- The function `ConvertFileURIToPath`. -/
def ConvertFileURIToPath (env : Env) (uri : GoString) : Except GoError GoString :=
  match env.urlParse uri with
  | .error err => .error err
  | .ok parsedURI =>
    let path := stringsReplaceFirst parsedURI.Path (lit "file:///") (lit "")
    let path :=
      if stringsHasPrefix path (lit "/") && stringsContains path (lit ":") then path.drop 1
      else path
    .ok path

/-- The function `ReadFileContent`, one read of the file system. -/
def lspServer.ReadFileContent (env : Env) (l : lspServer) (filePath : GoString) :
    Except GoError GoString × lspServer :=
  (env.ReadFile (readFileCalls l.trace).length filePath,
   { l with trace := l.trace ++ [Event.ReadFile filePath] })

/-- The handler `OnDidChangeTextDocument`; of its request it reads only the uri
`req.TextDocument.TextDocumentIdentifier.Uri`. -/
def lspServer.OnDidChangeTextDocument (env : Env) (l : lspServer) (uri : GoString) :
    Option GoError × lspServer :=
  match ConvertFileURIToPath env uri with
  | .error err => (some err, l)
  | .ok filePath =>
    match l.ReadFileContent env filePath with
    | (.error err, l) => (some err, l)
    | (.ok documentContent, l) =>
      let l := (l.NotifyGeneratedCode env (lit "AnalysisStarted") (lit "analysisStarted")).2
      match l.AnalyseDocument env uri documentContent with
      | (.error err, l) => (some err, l)
      | (.ok analysis, l) =>
        match l.StoreAnalysis uri analysis with
        | (some err, l) => (some err, l)
        | (none, l) =>
          match env.DiagnosticsUnmarshal uri analysis with
          | .error err => (some err, l)
          | .ok diagnostics =>
            match l.UpdateDiagnostics uri diagnostics with
            | (some err, l) => (some err, l)
            | (none, l) =>
              let l := (l.updateDocumentStore env uri documentContent).2
              let l := (l.NotifyGeneratedCode env (lit "AnalysisDone") (lit "analysisDone")).2
              (none, l)

/-! ### Pull diagnostics -/

/-- The type `defines.DiagnosticSeverity` of the protocol library. -/
inductive defines.DiagnosticSeverity where
  | Error
  | Warning
  | Information
  | Hint
deriving DecidableEq, Repr

/-- The type `defines.Position`; both fields are `uint`. -/
structure defines.Position where
  Line : Nat
  Character : Nat
deriving DecidableEq, Repr

/-- The type `defines.Range`. -/
structure defines.Range where
  Start : defines.Position
  End : defines.Position
deriving DecidableEq, Repr

/-- The type `defines.Location`. -/
structure defines.Location where
  Uri : GoString
  Range : defines.Range
deriving DecidableEq, Repr

/-- The type `defines.DiagnosticRelatedInformation`. -/
structure defines.DiagnosticRelatedInformation where
  Location : defines.Location
  Message : GoString
deriving DecidableEq, Repr

/-- The type `defines.CodeDescription`. -/
structure defines.CodeDescription where
  Href : GoString
deriving DecidableEq, Repr

/-- The fields of `defines.Diagnostic` that `OnDiagnostic` sets; a pointer field is an
`Option`. -/
structure defines.Diagnostic where
  Range : defines.Range
  Severity : Option defines.DiagnosticSeverity
  Code : GoString
  Source : Option GoString
  Message : GoString
  CodeDescription : Option defines.CodeDescription
  RelatedInformation : Option (List defines.DiagnosticRelatedInformation)
deriving DecidableEq, Repr

/-- The constant `defines.DocumentDiagnosticReportKindFull`. -/
def defines.DocumentDiagnosticReportKindFull : GoString := lit "full"

/-- The fields of `defines.FullDocumentDiagnosticReport` that `OnDiagnostic` sets; the zero
value has an empty `Kind` and no items. -/
structure defines.FullDocumentDiagnosticReport where
  Kind : GoString
  Items : List defines.Diagnostic
deriving DecidableEq, Repr

/-- The `switch d.Severity` of `OnDiagnostic`. -/
def diagnosticSeverity (severity : GoString) : defines.DiagnosticSeverity :=
  if severity = lit "advisory" then .Warning
  else if severity = lit "mandatory" then .Error
  else .Hint

/-- The body of the loop `for _, d := range docDiagnostics` of `OnDiagnostic`: the protocol
diagnostic built for `d`. -/
def lspServer.toDiagnostic (env : Env) (l : lspServer) (uri : GoString) (d : LspDiagnostic) :
    defines.Diagnostic :=
  let message := env.DiagnosticToPrettyText d
  let severity := diagnosticSeverity d.Severity
  let diagRange : defines.Range :=
    { Start := { Line := toUint (d.LineNumber - 1), Character := 0 },
      End := { Line := toUint (d.LineNumber - 1), Character := 5 } }
  let relatedInfo : List defines.DiagnosticRelatedInformation :=
    [{ Location := { Uri := uri, Range := diagRange }, Message := message }]
  let searchUrl := lit "https://bing.com/search?=\"" ++ d.Source ++ lit "\""
  { Range := diagRange,
    Severity := some severity,
    Code := d.Source ++ lit " " ++ d.Rule,
    Source := some l.name,
    Message := d.Description,
    CodeDescription := some { Href := searchUrl },
    RelatedInformation := some relatedInfo }

/-- The handler `OnDiagnostic`; of its request it reads only the uri `req.TextDocument.Uri`.
It returns the report and the error. -/
def lspServer.OnDiagnostic (env : Env) (l : lspServer) (uri : GoString) :
    (defines.FullDocumentDiagnosticReport × Option GoError) × lspServer :=
  let report : defines.FullDocumentDiagnosticReport := { Kind := [], Items := [] }
  match l.GetDiagnostics uri with
  | (.error _, l) => ((report, none), l)
  | (.ok docDiagnostics, l) =>
    let diagnostics := docDiagnostics.map (l.toDiagnostic env uri)
    let items := diagnostics.map id
    ((({ Kind := defines.DocumentDiagnosticReportKindFull, Items := items }), none), l)

/-! ### Integer conversions -/

/-- The smallest Go `int` on a 64-bit platform. -/
def minInt : Int := -(2 ^ 63)

/-- The Go `int` produced by an `int` operation whose exact result is `i` (two's complement
wrap-around on a 64-bit platform). -/
def wrapInt (i : Int) : Int := (i + 2 ^ 63) % 2 ^ 64 - 2 ^ 63

/-- Conversion `int(n)` of a Go `uint`. -/
def toInt (n : Nat) : Int := wrapInt n

/-- The Go `uint` produced by a `uint` operation whose exact result is `n`. -/
def wrapUint (n : Nat) : Nat := n % 2 ^ 64

/-! ### Hover -/

/-- The type `defines.MarkupContent`. -/
structure defines.MarkupContent where
  Kind : GoString
  Value : GoString
deriving DecidableEq, Repr

/-- The constant `defines.MarkupKindMarkdown`. -/
def defines.MarkupKindMarkdown : GoString := lit "markdown"

/-- The fields of `defines.Hover` that `OnHover` sets. -/
structure defines.Hover where
  Contents : defines.MarkupContent
deriving DecidableEq, Repr

/-- The test `d.LineNumber-1 != int(req.Position.Line)` of `OnHover`, negated: the diagnostic
is on the hovered line. -/
def hoverMatches (line : Nat) (d : LspDiagnostic) : Bool :=
  wrapInt (d.LineNumber - 1) = toInt line

/-- The loop `for _, d := range diagnostics` of `OnHover`, from the value of `value` on entry
to its value on exit: a diagnostic on another line is skipped, each other one is rendered into
`value`, and the loop breaks at the first rendering error. -/
def hoverLoop (env : Env) (line : Nat) : List LspDiagnostic → GoString → GoString
  | [], value => value
  | d :: ds, value =>
    if hoverMatches line d then
      match env.DiagnosticToJsonMarkup d with
      | (value, some _) => value
      | (value, none) => hoverLoop env line ds value
    else hoverLoop env line ds value

/-- The handler `OnHover`; of its request it reads the uri `req.TextDocument.Uri` and the
position `req.Position`. It returns the hover (`none` is `nil`) and the error. -/
def lspServer.OnHover (env : Env) (l : lspServer) (uri : GoString)
    (position : defines.Position) : (Option defines.Hover × Option GoError) × lspServer :=
  match l.GetDiagnostics uri with
  | (.error err, l) => ((none, some err), l)
  | (.ok diagnostics, l) =>
    let value := hoverLoop env position.Line diagnostics []
    ((some { Contents := { Kind := defines.MarkupKindMarkdown, Value := value } }, none), l)

/-! ### Code actions -/

/-- The constant `defines.CodeActionKindRefactorRewrite`. -/
def defines.CodeActionKindRefactorRewrite : GoString := lit "refactor.rewrite"

/-- The constant `defines.CodeActionKindQuickFix`. -/
def defines.CodeActionKindQuickFix : GoString := lit "quickfix"

/-- The field `Data` of a code action as the handlers read it: not a map, or a map with the
string entry `uri` and the entry `range`, which is `none` when it is not a map and else the
range its `start` and `end` entries convert to. Data on which a type assertion of
`OnCodeActionResolve` without the `ok` result would fail is not represented. -/
inductive ActionData where
  | notMap
  | map (uri : GoString) (range : Option defines.Range)
deriving DecidableEq, Repr

/-- The type `defines.TextEdit`. -/
structure defines.TextEdit where
  Range : defines.Range
  NewText : GoString
deriving DecidableEq, Repr

/-- The type `defines.WorkspaceEdit`; the map `Changes` is the list of its entries. -/
structure defines.WorkspaceEdit where
  Changes : Option (List (GoString × List defines.TextEdit))
deriving DecidableEq, Repr

/-- The fields of `defines.CodeAction` that the handlers read or set. -/
structure defines.CodeAction where
  Title : GoString
  Kind : Option GoString
  Data : ActionData
  Edit : Option defines.WorkspaceEdit
deriving DecidableEq, Repr

/-- The value `int(cursorLine)` of `OnCodeActionWithSliceCodeAction`, where
`cursorLine := req.Range.Start.Line + 1` is computed on `uint`. -/
def actionCursorLine (range : defines.Range) : Int := toInt (wrapUint (range.Start.Line + 1))

/-- The handler `OnCodeActionWithSliceCodeAction`; of its request it reads the uri
`req.TextDocument.Uri` and the range `req.Range`. It returns the actions (`none` is `nil`)
and the error. -/
def lspServer.OnCodeActionWithSliceCodeAction (l : lspServer) (uri : GoString)
    (range : defines.Range) : (Option (List defines.CodeAction) × Option GoError) × lspServer :=
  match l.GetDiagnostics uri with
  | (.error err, l) => ((none, some err), l)
  | (.ok diagnostics, l) =>
    let relevantDiagnostics :=
      diagnostics.filter (fun diag => diag.LineNumber = actionCursorLine range)
    if relevantDiagnostics.length = 0 then ((none, none), l)
    else
      let actionData := ActionData.map uri (some range)
      let refactorAction : defines.CodeAction :=
        { Title := lit "Ask LLM for Fix [FuzzLSP]",
          Kind := some defines.CodeActionKindRefactorRewrite,
          Data := actionData, Edit := none }
      let actions := [] ++ [refactorAction]
      let refactorAction : defines.CodeAction :=
        { Title := lit "Explain issue [FuzzLSP]",
          Kind := some defines.CodeActionKindQuickFix,
          Data := actionData, Edit := none }
      let actions := actions ++ [refactorAction]
      ((some actions, none), l)

/-! ### Slices and lines -/

/-- How a handler call ends: with a result and a `nil` error, with an error, or in a run-time
panic (an index or slice bound out of range). -/
inductive Outcome (α : Type) where
  | ok (result : α)
  | error (err : GoError)
  | panic
deriving DecidableEq, Repr

/-- The byte `\n`. -/
def newline : UInt8 := 10

/-- The library function `strings.Split(s, sep)` for a separator of one byte. -/
def stringsSplit : GoString → UInt8 → List GoString
  | [], _ => [[]]
  | c :: cs, sep =>
    if c = sep then [] :: stringsSplit cs sep
    else
      match stringsSplit cs sep with
      | [] => [[c]]
      | first :: rest => (c :: first) :: rest

/-- The library function `strings.Join(elems, sep)`. -/
def stringsJoin : List GoString → GoString → GoString
  | [], _ => []
  | [e], _ => e
  | e :: es, sep => e ++ sep ++ stringsJoin es sep

/-- The library function `strings.ReplaceAll(s, old, new)` for an `old` of one byte. -/
def stringsReplaceAll (s : GoString) (old : UInt8) (new : GoString) : GoString :=
  s.flatMap (fun c => if c = old then new else [c])

/-- The index expression `xs[i]` for an `int` index; `none` is the panic. -/
def goIndex {α : Type} (xs : List α) (i : Int) : Option α :=
  if 0 ≤ i ∧ i < xs.length then xs[i.toNat]? else none

/-- The slice expression `xs[lo:hi]` for `int` bounds; `none` is the panic. -/
def goSlice {α : Type} (xs : List α) (lo hi : Int) : Option (List α) :=
  if 0 ≤ lo ∧ lo ≤ hi ∧ hi ≤ xs.length then some ((xs.drop lo.toNat).take (hi.toNat - lo.toNat))
  else none

/-- The call `l.backend.RefactorCodeLine(line)`. -/
def lspServer.RefactorCodeLine (env : Env) (l : lspServer) (line : GoString) :
    Except GoError GoString × lspServer :=
  (env.backend.RefactorCodeLine (refactorCalls l.trace).length line,
   { l with trace := l.trace ++ [Event.RefactorCodeLine line] })

/-- The call `l.backend.ExplainCodeIssue(line)`. -/
def lspServer.ExplainCodeIssue (env : Env) (l : lspServer) (line : GoString) :
    Except GoError GoString × lspServer :=
  (env.backend.ExplainCodeIssue (explainCalls l.trace).length line,
   { l with trace := l.trace ++ [Event.ExplainCodeIssue line] })

/-- The second `if` of `OnCodeActionResolve` (the explain action) and its `return req, nil`. -/
def lspServer.resolveExplain (env : Env) (l : lspServer) (req : defines.CodeAction)
    (documentURI : GoString) (actionRange : defines.Range) (lineText : GoString) :
    Outcome defines.CodeAction × lspServer :=
  if req.Kind = some defines.CodeActionKindQuickFix then
    match l.ExplainCodeIssue env lineText with
    | (.error err, l) => (.error err, l)
    | (.ok explanation, l) =>
      let changes : List (GoString × List defines.TextEdit) :=
        [(documentURI, [{ Range := actionRange,
                          NewText := lit "/* " ++ explanation ++ lit " */\n" ++ lineText }])]
      (.ok { req with Edit := some { Changes := some changes } }, l)
  else (.ok req, l)

/-- The handler `OnCodeActionResolve`. -/
def lspServer.OnCodeActionResolve (env : Env) (l : lspServer) (req : defines.CodeAction) :
    Outcome defines.CodeAction × lspServer :=
  match req.Data with
  | .notMap => (.error "failed to cast Data to map[string]interface\x7b\x7d", l)
  | .map _ none => (.error "failed to cast Range to map[string]interface\x7b\x7d", l)
  | .map documentURI (some actionRange) =>
    match ConvertFileURIToPath env documentURI with
    | .error err => (.error err, l)
    | .ok filePath =>
      match l.ReadFileContent env filePath with
      | (.error err, l) => (.error err, l)
      | (.ok documentContent, l) =>
        let lines := stringsSplit documentContent newline
        let cursorLine := toInt actionRange.Start.Line
        if cursorLine ≥ lines.length then
          (.error ("invalid cursor line: " ++ toString cursorLine), l)
        else
          match goIndex lines cursorLine with
          | none => (.panic, l)
          | some lineText =>
            if req.Kind = some defines.CodeActionKindRefactorRewrite then
              match l.RefactorCodeLine env lineText with
              | (.error err, l) => (.error err, l)
              | (.ok refactoredText, l) =>
                let changes : List (GoString × List defines.TextEdit) :=
                  [(documentURI, [{ Range := actionRange, NewText := refactoredText }])]
                l.resolveExplain env { req with Edit := some { Changes := some changes } }
                  documentURI actionRange lineText
            else l.resolveExplain env req documentURI actionRange lineText

/-! ### Completion -/

/-- The fields of `defines.CompletionItem` that `OnCompletion` sets; a pointer field is an
`Option`. -/
structure defines.CompletionItem where
  Label : GoString
  Kind : Option Nat
  InsertText : Option GoString
  InsertTextFormat : Option Nat
  Documentation : Option GoString
deriving DecidableEq, Repr

/-- The constant `defines.CompletionItemKindText`. -/
def defines.CompletionItemKindText : Nat := 1

/-- The constant `defines.InsertTextFormatPlainText`. -/
def defines.InsertTextFormatPlainText : Nat := 1

/-- The byte `"`. -/
def quote : UInt8 := 34

/-- The call `l.backend.CompleteCode(uri, prefix, systemPrompt)`. -/
def lspServer.CompleteCode (env : Env) (l : lspServer) (uri pfx systemPrompt : GoString) :
    Except GoError (List GoString) × lspServer :=
  (env.backend.CompleteCode (completeCodeCalls l.trace).length uri pfx systemPrompt,
   { l with trace := l.trace ++ [Event.CompleteCode uri pfx systemPrompt] })

/-- The call `l.backend.GenerateCode(uri, prefix, suffix, systemPrompt)`. -/
def lspServer.GenerateCode (env : Env) (l : lspServer) (uri pfx suffix systemPrompt : GoString) :
    Except GoError GoString × lspServer :=
  (env.backend.GenerateCode (generateCodeCalls l.trace).length uri pfx suffix systemPrompt,
   { l with trace := l.trace ++ [Event.GenerateCode uri pfx suffix systemPrompt] })

/-- The last part of the context extraction of `OnCompletion` (`endLine` to the suffix), for
the lines of the document, the cursor as `int`s, the cursor line `current` and the prefix
`pfx` built before. -/
def completionSuffix (lines : List GoString) (line character : Int) (current pfx : GoString) :
    Outcome (GoString × GoString) :=
  let endLine := wrapInt (line + 3)
  let endLine := if endLine > lines.length then (lines.length : Int) else endLine
  match goSlice lines (wrapInt (line + 1)) endLine with
  | none => .panic
  | some suffixLines =>
    let suffix := stringsJoin suffixLines (lit "\n")
    if character ≥ 0 ∧ character < current.length then
      match goSlice current character current.length with
      | none => .panic
      | some currentLineSuffix => .ok (pfx, currentLineSuffix ++ lit "\n" ++ suffix)
    else .ok (pfx, suffix)

/-- The context extraction of `OnCompletion` from the check of the line on, for the lines of
the document and the cursor as `int`s. The variable `prefix` of the source is `pfx`. -/
def completionWindow (lines : List GoString) (line character : Int) :
    Outcome (GoString × GoString) :=
  if line ≥ lines.length then .error "line number out of range"
  else
    let startLine := wrapInt (line - 3)
    let startLine := if startLine < 0 then 0 else startLine
    match goSlice lines startLine line with
    | none => .panic
    | some prefixLines =>
      let pfx := stringsJoin prefixLines (lit "\n")
      match goIndex lines line with
      | none => .panic
      | some current =>
        if character > 0 ∧ character ≤ current.length then
          match goSlice current 0 character with
          | none => .panic
          | some currentLinePrefix =>
            completionSuffix lines line character current (pfx ++ lit "\n" ++ currentLinePrefix)
        else if character > current.length then .error "character position out of range"
        else completionSuffix lines line character current pfx

/-- The context extraction of `OnCompletion`, from the check of the document content to the
suffix: the prefix and the suffix handed to the backend, an error, or a panic. -/
def completionContext (documentContent : GoString) (position : defines.Position) :
    Outcome (GoString × GoString) :=
  if documentContent = [] then .error "failed to retrieve document content"
  else
    completionWindow (stringsSplit documentContent newline) (toInt position.Line)
      (toInt position.Character)

/-- The completion item `OnCompletion` builds for one completion of the backend. -/
def completionItem (comp : GoString) : defines.CompletionItem :=
  { Label := comp, Kind := some defines.CompletionItemKindText, InsertText := some comp,
    InsertTextFormat := some defines.InsertTextFormatPlainText, Documentation := none }

/-- The constant `systemPrompt` of `OnCompletion`. -/
def systemPrompt : GoString :=
  lit "You are a coding assistant. Provide the best possible code completions based on the given context."

/-- The handler `OnCompletion`; of its request it reads the uri `req.TextDocument.Uri` and the
position `req.Position`. -/
def lspServer.OnCompletion (env : Env) (l : lspServer) (uri : GoString)
    (position : defines.Position) : Outcome (List defines.CompletionItem) × lspServer :=
  match ConvertFileURIToPath env uri with
  | .error err => (.error err, l)
  | .ok filePath =>
    match l.ReadFileContent env filePath with
    | (.error err, l) => (.error err, l)
    | (.ok documentContent, l) =>
      match completionContext documentContent position with
      | .error err => (.error err, l)
      | .panic => (.panic, l)
      | .ok (pfx, suffix) =>
        match l.CompleteCode env uri pfx systemPrompt with
        | (.error err, l) => (.error err, l)
        | (.ok completions, l) =>
          match l.GenerateCode env uri pfx suffix systemPrompt with
          | (.error err, l) => (.error err, l)
          | (.ok generatedCode, l) =>
            let escapedGeneratedCode := stringsReplaceAll generatedCode newline (lit "\\n")
            let escapedGeneratedCode :=
              stringsReplaceAll escapedGeneratedCode quote (lit "\\\"")
            let l := (l.NotifyGeneratedCode env escapedGeneratedCode
              (lit "window/showGeneratedCode")).2
            let completionItems := completions.map completionItem
            let completionItems := completionItems ++
              [{ completionItem generatedCode with
                 Documentation := some (lit "Generated suggestion") }]
            (.ok completionItems, l)

/-! ### Document opened and saved -/

/-- The handler `OnDidOpenTextDocument`; of its request it reads the uri
`req.TextDocument.Uri` and the text `req.TextDocument.Text`. -/
def lspServer.OnDidOpenTextDocument (env : Env) (l : lspServer) (uri text : GoString) :
    Option GoError × lspServer :=
  let l := (l.NotifyGeneratedCode env (lit "AnalysisStarted") (lit "analysisStarted")).2
  l.updateDocumentStore env uri text

/-- The handler `OnDidSaveTextDocument`; of its request it reads only the uri
`req.TextDocument.Uri`. -/
def lspServer.OnDidSaveTextDocument (env : Env) (l : lspServer) (uri : GoString) :
    Option GoError × lspServer :=
  match ConvertFileURIToPath env uri with
  | .error err => (some err, l)
  | .ok filePath =>
    match l.ReadFileContent env filePath with
    | (.error err, l) => (some err, l)
    | (.ok documentContent, l) =>
      if documentContent ≠ [] then l.updateDocumentStore env uri documentContent
      else (none, l)

/-! ### Closing the connection -/

/-- The method `Conn.Close` of `conn.go`: `err1` and `err2` are both results of
`c.reader.Close()`. -/
def Conn.Close (readerClose : Nat → Nat → Option GoError) (c : Conn) (t : List Event) :
    Option GoError × List Event :=
  let err1 := readerClose (readerCloseCalls t).length c.reader
  let t := t ++ [Event.ReaderClose c.reader]
  let err2 := readerClose (readerCloseCalls t).length c.reader
  let t := t ++ [Event.ReaderClose c.reader]
  match err1, err2 with
  | none, none => (none, t)
  | none, some err2 => (some err2, t)
  | some err1, none => (some err1, t)
  | some err1, some err2 => (some ("two errors, err1: " ++ err1 ++ ", err2: " ++ err2), t)

/-- The method `Shutdown` of the server; it returns nothing. -/
def lspServer.Shutdown (env : Env) (l : lspServer) : lspServer :=
  match l.conn with
  | some conn => { l with trace := (conn.Close env.ReaderClose l.trace).2, conn := none }
  | none => l

/-! ## Example collaborators -/

/-- A backend whose every call fails. -/
def LspBackend.down : LspBackend where
  Start := none
  AnalyseDocument := fun _ _ _ => .error "backend down"
  CompleteCode := fun _ _ _ _ => .error "backend down"
  GenerateCode := fun _ _ _ _ _ => .error "backend down"
  RefactorCodeLine := fun _ _ => .error "backend down"
  ExplainCodeIssue := fun _ _ => .error "backend down"

/-- A JSON encoder for strings that quotes the payload and lays the envelope out as
`jsonrpc`, `method`, `params`. -/
def Jsoniter.plain : Jsoniter GoString where
  MarshalParams := fun p => .ok (lit "\"" ++ p ++ lit "\"")
  MarshalMessage := fun m =>
    .ok (lit "\x7b\"jsonrpc\":\"" ++ m.Jsonrpc ++ lit "\",\"method\":\"" ++ m.Method
          ++ lit "\",\"params\":" ++ (m.Params.getD (lit "null")) ++ lit "\x7d")

/-- The diagnostic used in the examples: line 2, mandatory, source `lint`, rule `undecl`. -/
def exampleDiagnostic : LspDiagnostic :=
  { LineNumber := 2, Severity := lit "mandatory", Source := lit "lint", Rule := lit "undecl",
    Description := lit "foo is not declared" }

/-- An environment in which the backend is down, the parser accepts exactly the texts `ok`
(one diagnostic, `exampleDiagnostic`) and `[]` (no diagnostic), the retry prompt is `RETRY:`,
the path of a url is what follows `file://`, every file is empty, every write and every close
succeeds, and a diagnostic is rendered as its description. -/
def Env.basic : Env where
  backend := LspBackend.down
  DiagnosticsUnmarshal := fun _ analysis =>
    if analysis = lit "ok" then .ok [exampleDiagnostic]
    else if analysis = lit "[]" then .ok []
    else .error "malformed analysis"
  LoadPrompt := fun _ _ => (lit "RETRY:", none)
  ParamRetryPromptFile := lit "retry.txt"
  DiagnosticToPrettyText := fun d => d.Description
  DiagnosticToJsonMarkup := fun d => (d.Description, none)
  urlParse := fun uri =>
    .ok { Path := if (lit "file://").isPrefixOf uri then uri.drop 7 else uri }
  ReadFile := fun _ _ => .ok []
  jsoniter := Jsoniter.plain
  Write := fun _ _ _ => none
  ReaderClose := fun _ _ => none
  WriterClose := fun _ _ => none

/-- A server named `fuzzlsp` with an empty store and a connection attached. -/
def lspServer.fresh : lspServer :=
  { name := lit "fuzzlsp", documents := NewLspDocuments, conn := some { reader := 0, writer := 1 },
    trace := [], observed := [] }

/-! ## Auxiliary definitions for the statements -/

/-- The instruction prefixed to the text on attempt `j + 1` of a run that starts with
instruction `instruction` when `loads` prompt loads were made before. -/
def instructionAt (env : Env) (loads : Nat) (instruction : GoString) : Nat → GoString
  | 0 => instruction
  | j + 1 => (env.LoadPrompt (loads + j) env.ParamRetryPromptFile).1

/-- The diagnostics stored for a document (none for an unknown document). -/
def diagnosticsOf (docs : LspDocuments) (uri : GoString) : List LspDiagnostic :=
  match docs uri with
  | some d => d.diagnostics
  | none => []

/-- What `m` failed attempts leave behind, from server `l` to server `l2`. -/
def AfterRetries (env : Env) (uri text : GoString) (resp : Nat → GoString)
    (instruction : GoString) (m : Nat) (l l2 : lspServer) : Prop :=
  analyseCalls l2.trace = analyseCalls l.trace ++ (List.range m).map (fun j =>
      (uri, instructionAt env (loadPromptCalls l.trace).length instruction j ++ text))
  ∧ storeAnalysisCalls l2.trace
      = storeAnalysisCalls l.trace ++ (List.range m).map (fun j => (uri, resp j))
  ∧ loadPromptCalls l2.trace
      = loadPromptCalls l.trace ++ List.replicate m env.ParamRetryPromptFile
  ∧ updateDiagnosticsCalls l2.trace = updateDiagnosticsCalls l.trace
  ∧ (∃ d, l2.documents uri = some d)
  ∧ (∀ u, diagnosticsOf l2.documents u = diagnosticsOf l.documents u)
  ∧ (∀ u, u ≠ uri → l2.documents u = l.documents u)
  ∧ (0 < m → ∃ d, l2.documents uri = some d ∧ d.analysis = resp (m - 1))
  ∧ l2.conn = l.conn ∧ l2.name = l.name

/-- The environment `Env.basic` with a backend that answers `ok` (which parses) on its `k`-th
`AnalyseDocument` call and `junk` (which does not) on every other call. -/
def Env.parsesOnAttempt (k : Nat) : Env :=
  { Env.basic with
    backend := { LspBackend.down with
      AnalyseDocument := fun n _ _ => if n + 1 = k then .ok (lit "ok") else .ok (lit "junk") } }

/-- The environment `Env.basic` with a backend that answers `junk` (which does not parse) on
every `AnalyseDocument` call before the `k`-th and fails from the `k`-th call on. -/
def Env.failsOnAttempt (k : Nat) : Env :=
  { Env.basic with
    backend := { LspBackend.down with
      AnalyseDocument := fun n _ _ =>
        if n + 1 < k then .ok (lit "junk") else .error "backend unreachable" } }

/-- The environment `Env.basic` with a backend that answers every `AnalyseDocument` call with
the text `[]`, which parses to the empty diagnostic list. -/
def Env.findsNothing : Env :=
  { Env.basic with
    backend := { LspBackend.down with AnalyseDocument := fun _ _ _ => .ok (lit "[]") } }

/-- A server whose store holds the document `file:///a.c` with text `int x;`, analysis text
`ok` and the diagnostics that `ok` parses to under `Env.basic`. -/
def lspServer.seeded : lspServer :=
  { lspServer.fresh with
    documents := Function.update NewLspDocuments (lit "file:///a.c")
      (some { text := lit "int x;", analysis := lit "ok", diagnostics := [exampleDiagnostic] }) }

/-- The invariant of section 3 of the spec for one document of a store: if the document is
stored, its diagnostics are the parse of its most recent analysis text. -/
def Consistent (env : Env) (uri : GoString) (docs : LspDocuments) : Prop :=
  ∀ d, docs uri = some d → env.DiagnosticsUnmarshal uri d.analysis = .ok d.diagnostics

/-- The store contents left by each store write of a call of `updateDocumentStore`: the states
of the store observable between its store operations and after it. -/
def observedDuring (env : Env) (l : lspServer) (uri text : GoString) : List LspDocuments :=
  (l.updateDocumentStore env uri text).2.observed.drop l.observed.length

/-- The environment `Env.findsNothing` in which every file read returns the text `int x;`. -/
def Env.unchangedFile : Env :=
  { Env.findsNothing with ReadFile := fun _ _ => .ok (lit "int x;") }

/-- A server whose store holds the document `file:///a.c` with the single diagnostic
`exampleDiagnostic`. -/
def lspServer.diagnosed : lspServer :=
  { lspServer.fresh with
    documents := Function.update NewLspDocuments (lit "file:///a.c")
      (some { text := lit "int x = 1\nfoo();\n", analysis := lit "ok",
              diagnostics := [exampleDiagnostic] }) }

/-- What `OnDiagnostic` makes of one stored diagnostic `d`, as far as code, message, severity
and range go. -/
def RendersAs (d : LspDiagnostic) (item : defines.Diagnostic) : Prop :=
  item.Code = d.Source ++ lit " " ++ d.Rule
  ∧ item.Message = d.Description
  ∧ item.Severity = some (diagnosticSeverity d.Severity)
  ∧ item.Range = { Start := { Line := (d.LineNumber - 1).toNat, Character := 0 },
                   End := { Line := (d.LineNumber - 1).toNat, Character := 5 } }

/-- A diagnostic at line 2 described as `first issue`. -/
def firstIssue : LspDiagnostic :=
  { LineNumber := 2, Severity := lit "advisory", Source := lit "lint", Rule := lit "r1",
    Description := lit "first issue" }

/-- A diagnostic at line 2 described as `second issue`. -/
def secondIssue : LspDiagnostic :=
  { LineNumber := 2, Severity := lit "mandatory", Source := lit "lint", Rule := lit "r2",
    Description := lit "second issue" }

/-- A server whose store holds the document `file:///a.c` with two diagnostics on line 2,
`firstIssue` and then `secondIssue`. -/
def lspServer.twoOnLine : lspServer :=
  { lspServer.fresh with
    documents := Function.update NewLspDocuments (lit "file:///a.c")
      (some { text := lit "int x = 1\nfoo();\n", analysis := lit "ok",
              diagnostics := [firstIssue, secondIssue] }) }

/-- The markup value `OnHover` returns for the stored list `ds` and the hovered line when
every rendering succeeds: the rendering of the last diagnostic of `ds` on that line, and the
empty string when there is none. -/
def lastMatchValue (env : Env) (line : Nat) (ds : List LspDiagnostic) : GoString :=
  match (ds.filter (hoverMatches line)).getLast? with
  | some d => (env.DiagnosticToJsonMarkup d).1
  | none => []

/-- The environment `Env.basic` in which every file read returns the text
`int x = 1\nfoo();\nreturn;\nint y;\nend`, and the backend refactors every line to `bar();`,
explains every line as `foo is unknown`, completes with `foo` and `bar`, and generates
`baz();\n`. -/
def Env.assistant : Env :=
  { Env.basic with
    ReadFile := fun _ _ => .ok (lit "int x = 1\nfoo();\nreturn;\nint y;\nend")
    backend := { LspBackend.down with
      RefactorCodeLine := fun _ _ => .ok (lit "bar();")
      ExplainCodeIssue := fun _ _ => .ok (lit "foo is unknown")
      CompleteCode := fun _ _ _ _ => .ok [lit "foo", lit "bar"]
      GenerateCode := fun _ _ _ _ _ => .ok (lit "baz();\n") } }

/-- A refactor action as the client sends it back for resolution: data `file:///a.c` and the
range of columns 0 to 4 of line 1. -/
def exampleRefactorAction : defines.CodeAction :=
  { Title := lit "Ask LLM for Fix [FuzzLSP]",
    Kind := some defines.CodeActionKindRefactorRewrite,
    Data := ActionData.map (lit "file:///a.c") (some ⟨⟨1, 0⟩, ⟨1, 4⟩⟩), Edit := none }

/-- An explain action as the client sends it back for resolution, with the same data. -/
def exampleExplainAction : defines.CodeAction :=
  { exampleRefactorAction with
    Title := lit "Explain issue [FuzzLSP]", Kind := some defines.CodeActionKindQuickFix }

/-- The workspace edit with exactly one text edit, keyed by `uri`: `newText` at `range`. -/
def singleEdit (uri : GoString) (range : defines.Range) (newText : GoString) :
    defines.WorkspaceEdit :=
  { Changes := some [(uri, [{ Range := range, NewText := newText }])] }

/-- The bytes `Conn.Notify` writes for the method and the string payload, when the payload and
the envelope serialise. -/
def notifyFrame (env : Env) (method payload : GoString) : Option GoString :=
  match env.jsoniter.MarshalParams payload with
  | .error _ => none
  | .ok jsonParams =>
    match env.jsoniter.MarshalMessage
        { Jsonrpc := lit "2.0", Method := method, Params := some jsonParams } with
    | .error _ => none
    | .ok body => some (lit "Content-Length: " ++ decimal body.length ++ lit "\r\n\r\n" ++ body)

/-- The bytes of the `analysisStarted` notification in the examples. -/
def startedFrame : GoString :=
  lit ("Content-Length: 71\r\n\r\n"
    ++ "\x7b\"jsonrpc\":\"2.0\",\"method\":\"analysisStarted\",\"params\":\"AnalysisStarted\"\x7d")

/-- The bytes of the `analysisDone` notification in the examples. -/
def doneFrame : GoString :=
  lit ("Content-Length: 65\r\n\r\n"
    ++ "\x7b\"jsonrpc\":\"2.0\",\"method\":\"analysisDone\",\"params\":\"AnalysisDone\"\x7d")

/-- A diagnostic at line 0 described as `file issue`. -/
def zeroLineIssue : LspDiagnostic :=
  { LineNumber := 0, Severity := lit "advisory", Source := lit "lint", Rule := lit "r0",
    Description := lit "file issue" }

/-- A server whose store holds the document `file:///a.c` with the single diagnostic
`zeroLineIssue`. -/
def lspServer.atLineZero : lspServer :=
  { lspServer.fresh with
    documents := Function.update NewLspDocuments (lit "file:///a.c")
      (some { text := lit "int x = 1\nfoo();\n", analysis := lit "ok",
              diagnostics := [zeroLineIssue] }) }

/-- The largest `uint`, `2^64 - 1`. -/
def maxUint : Nat := 18446744073709551615

/-- A refactor action whose stored range starts on line `2^63`. -/
def farRefactorAction : defines.CodeAction :=
  { exampleRefactorAction with
    Data := ActionData.map (lit "file:///a.c")
      (some ⟨⟨9223372036854775808, 0⟩, ⟨9223372036854775808, 4⟩⟩) }

/-- An explain action whose stored range starts on line `2^63`. -/
def farExplainAction : defines.CodeAction :=
  { exampleExplainAction with
    Data := ActionData.map (lit "file:///a.c")
      (some ⟨⟨9223372036854775808, 0⟩, ⟨9223372036854775808, 4⟩⟩) }

/-! # Theorems -/

/-! ## The store and the calls, one step at a time -/

section Steps

variable (env : Env) (l : lspServer) (uri text : GoString)

theorem Store_fst_eq_none_iff (docs : LspDocuments) :
    (docs.Store uri text).1 = none ↔ ∀ d, docs uri = some d → d.text ≠ text := by
  unfold LspDocuments.Store
  cases h : docs uri with
  | none => simp
  | some d => by_cases ht : d.text = text <;> simp [ht]

theorem Store_snd_self (docs : LspDocuments) (h : (docs.Store uri text).1 = none) :
    ∃ d, (docs.Store uri text).2 uri = some d ∧ d.text = text := by
  unfold LspDocuments.Store at h ⊢
  cases hd : docs uri with
  | none => simp
  | some d =>
    by_cases ht : d.text = text
    · simp [hd, ht] at h
    · simp [ht]

theorem Store_snd_other (docs : LspDocuments) (uri2 : GoString) (h : uri2 ≠ uri) :
    (docs.Store uri text).2 uri2 = docs uri2 := by
  unfold LspDocuments.Store
  cases hd : docs uri with
  | none => simp [Function.update, h]
  | some d => by_cases ht : d.text = text <;> simp [ht, Function.update, h]

theorem analysisLoop_backend_error (rem : Nat) (instruction : GoString) (err : Option GoError)
    (diagnostics : List LspDiagnostic) (e : GoError)
    (h : env.backend.AnalyseDocument (analyseCalls l.trace).length uri (instruction ++ text)
      = .error e) :
    lspServer.analysisLoop env uri text (rem + 1) instruction err diagnostics l
      = (.returned (some e), (l.AnalyseDocument env uri (instruction ++ text)).2) := by
  simp [lspServer.analysisLoop, lspServer.AnalyseDocument, h]

theorem analysisLoop_parsed (rem : Nat) (instruction : GoString) (err : Option GoError)
    (diagnostics ds : List LspDiagnostic) (d : Document) (r : GoString)
    (hd : l.documents uri = some d)
    (h : env.backend.AnalyseDocument (analyseCalls l.trace).length uri (instruction ++ text)
      = .ok r)
    (hp : env.DiagnosticsUnmarshal uri r = .ok ds) :
    lspServer.analysisLoop env uri text (rem + 1) instruction err diagnostics l
      = (.done none ds,
          ((l.AnalyseDocument env uri (instruction ++ text)).2.StoreAnalysis uri r).2) := by
  simp [lspServer.analysisLoop, lspServer.AnalyseDocument, lspServer.StoreAnalysis,
    LspDocuments.StoreAnalysis, h, hd, hp]

end Steps

section Retry

variable (env : Env) (uri text : GoString)

@[simp] theorem analyseCalls_append (t u : List Event) :
    analyseCalls (t ++ u) = analyseCalls t ++ analyseCalls u := by
  simp [analyseCalls]

@[simp] theorem storeAnalysisCalls_append (t u : List Event) :
    storeAnalysisCalls (t ++ u) = storeAnalysisCalls t ++ storeAnalysisCalls u := by
  simp [storeAnalysisCalls]

@[simp] theorem updateDiagnosticsCalls_append (t u : List Event) :
    updateDiagnosticsCalls (t ++ u) = updateDiagnosticsCalls t ++ updateDiagnosticsCalls u := by
  simp [updateDiagnosticsCalls]

@[simp] theorem loadPromptCalls_append (t u : List Event) :
    loadPromptCalls (t ++ u) = loadPromptCalls t ++ loadPromptCalls u := by
  simp [loadPromptCalls]

@[simp] theorem storeWriteUris_append (t u : List Event) :
    storeWriteUris (t ++ u) = storeWriteUris t ++ storeWriteUris u := by
  simp [storeWriteUris]


@[simp] theorem analyseCalls_nil : analyseCalls [] = [] := rfl

@[simp] theorem analyseCalls_cons (e : Event) (t : List Event) :
    analyseCalls (e :: t) = e.analyseArgs.toList ++ analyseCalls t := by
  cases h : e.analyseArgs <;> simp [analyseCalls, h]

@[simp] theorem storeAnalysisCalls_nil : storeAnalysisCalls [] = [] := rfl

@[simp] theorem storeAnalysisCalls_cons (e : Event) (t : List Event) :
    storeAnalysisCalls (e :: t) = e.storeAnalysisArgs.toList ++ storeAnalysisCalls t := by
  cases h : e.storeAnalysisArgs <;> simp [storeAnalysisCalls, h]

@[simp] theorem updateDiagnosticsCalls_nil : updateDiagnosticsCalls [] = [] := rfl

@[simp] theorem updateDiagnosticsCalls_cons (e : Event) (t : List Event) :
    updateDiagnosticsCalls (e :: t) = e.updateDiagnosticsArgs.toList ++ updateDiagnosticsCalls t := by
  cases h : e.updateDiagnosticsArgs <;> simp [updateDiagnosticsCalls, h]

@[simp] theorem loadPromptCalls_nil : loadPromptCalls [] = [] := rfl

@[simp] theorem loadPromptCalls_cons (e : Event) (t : List Event) :
    loadPromptCalls (e :: t) = e.loadPromptArg.toList ++ loadPromptCalls t := by
  cases h : e.loadPromptArg <;> simp [loadPromptCalls, h]

@[simp] theorem storeWriteUris_nil : storeWriteUris [] = [] := rfl

@[simp] theorem storeWriteUris_cons (e : Event) (t : List Event) :
    storeWriteUris (e :: t) = e.storeWriteUri.toList ++ storeWriteUris t := by
  cases h : e.storeWriteUri <;> simp [storeWriteUris, h]

theorem analysisLoop_retry_step (l : lspServer) (rem : Nat) (instruction : GoString)
    (err : Option GoError) (diagnostics : List LspDiagnostic) (d : Document) (r : GoString)
    (e : GoError) (hrem : 0 < rem) (hd : l.documents uri = some d)
    (h : env.backend.AnalyseDocument (analyseCalls l.trace).length uri (instruction ++ text)
      = .ok r)
    (hp : env.DiagnosticsUnmarshal uri r = .error e) :
    lspServer.analysisLoop env uri text (rem + 1) instruction err diagnostics l
      = lspServer.analysisLoop env uri text rem
          (env.LoadPrompt (loadPromptCalls l.trace).length env.ParamRetryPromptFile).1
          (env.LoadPrompt (loadPromptCalls l.trace).length env.ParamRetryPromptFile).2 []
          (((l.AnalyseDocument env uri (instruction ++ text)).2.StoreAnalysis uri r).2.LoadPrompt
            env).2 := by
  have hlt : maxRetries - rem < maxRetries := by unfold maxRetries; omega
  rw [lspServer.analysisLoop]
  simp [lspServer.AnalyseDocument, lspServer.StoreAnalysis,
    LspDocuments.StoreAnalysis, lspServer.LoadPrompt, h, hd, hp, hlt, Event.loadPromptArg]

theorem analysisLoop_exhausted (l : lspServer) (instruction : GoString)
    (err : Option GoError) (diagnostics : List LspDiagnostic) (d : Document) (r : GoString)
    (e : GoError) (hd : l.documents uri = some d)
    (h : env.backend.AnalyseDocument (analyseCalls l.trace).length uri (instruction ++ text)
      = .ok r)
    (hp : env.DiagnosticsUnmarshal uri r = .error e) :
    lspServer.analysisLoop env uri text 1 instruction err diagnostics l
      = (.returned (some e),
          ((l.AnalyseDocument env uri (instruction ++ text)).2.StoreAnalysis uri r).2) := by
  simp [lspServer.analysisLoop, lspServer.AnalyseDocument, lspServer.StoreAnalysis,
    LspDocuments.StoreAnalysis, h, hd, hp, maxRetries]

theorem analysisLoop_retries (resp : Nat → GoString) (m : Nat) :
    ∀ (rem : Nat) (instruction : GoString) (err : Option GoError)
      (diagnostics : List LspDiagnostic) (l : lspServer),
      m ≤ rem → (∃ d, l.documents uri = some d) →
      (∀ j, j < m → env.backend.AnalyseDocument ((analyseCalls l.trace).length + j) uri
          (instructionAt env (loadPromptCalls l.trace).length instruction j ++ text)
            = .ok (resp j)) →
      (∀ j, j < m → ∃ e, env.DiagnosticsUnmarshal uri (resp j) = .error e) →
      ∃ l2 err2 diagnostics2,
        lspServer.analysisLoop env uri text (rem + 1) instruction err diagnostics l
          = lspServer.analysisLoop env uri text (rem + 1 - m)
              (instructionAt env (loadPromptCalls l.trace).length instruction m) err2
              diagnostics2 l2
        ∧ AfterRetries env uri text resp instruction m l l2 := by
  induction m with
  | zero =>
    intro rem instruction err diagnostics l _ hd _ _
    exact ⟨l, err, diagnostics, by simp [instructionAt], by simp [AfterRetries, hd]⟩
  | succ m ih =>
    intro rem instruction err diagnostics l hm hd hresp hfail
    obtain ⟨l2, err2, diagnostics2, hloop, hA, hS, hL, hU, ⟨d2, hd2⟩, hDiag, hOther, hLast, hc, hn⟩ :=
      ih rem instruction err diagnostics l (by omega) hd
        (fun j hj => hresp j (by omega)) (fun j hj => hfail j (by omega))
    obtain ⟨e, he⟩ := hfail m (by omega)
    have hr := hresp m (by omega)
    have hidx : (analyseCalls l2.trace).length = (analyseCalls l.trace).length + m := by
      simp [hA]
    have hlidx : (loadPromptCalls l2.trace).length = (loadPromptCalls l.trace).length + m := by
      simp [hL]
    have hstep := analysisLoop_retry_step env uri text l2 (rem - m)
      (instructionAt env (loadPromptCalls l.trace).length instruction m) err2 diagnostics2 d2
      (resp m) e (by omega) hd2 (by rw [hidx]; exact hr) he
    have e1 : rem + 1 - m = rem - m + 1 := by omega
    have e2 : rem + 1 - (m + 1) = rem - m := by omega
    refine ⟨(((l2.AnalyseDocument env uri (instructionAt env (loadPromptCalls l.trace).length
        instruction m ++ text)).2.StoreAnalysis uri (resp m)).2.LoadPrompt env).2,
      (env.LoadPrompt ((loadPromptCalls l.trace).length + m) env.ParamRetryPromptFile).2, [],
      ?_, ?_⟩
    · rw [hloop, e1, hstep, e2, hlidx]
      rfl
    · simp only [AfterRetries, lspServer.AnalyseDocument, lspServer.StoreAnalysis,
        lspServer.LoadPrompt, LspDocuments.StoreAnalysis, hd2]
      refine ⟨?_, ?_, ?_, ?_, ?_, ?_, ?_, ?_, ?_, ?_⟩
      · simp [hA, List.range_succ, Event.analyseArgs]
      · simp [hS, List.range_succ, Event.storeAnalysisArgs]
      · simp [hL, List.replicate_succ', Event.loadPromptArg]
      · simp [hU, Event.updateDiagnosticsArgs]
      · simp
      · intro u
        rw [← hDiag u]
        by_cases hu : u = uri
        · subst hu; simp [diagnosticsOf, hd2]
        · simp [diagnosticsOf, Function.update, hu]
      · intro u hu
        rw [← hOther u hu]
        simp [Function.update, hu]
      · intro _
        simp
      · exact hc
      · exact hn

end Retry

section Claims

variable (env : Env) (l : lspServer) (uri text : GoString)

/-! ## The retry protocol of `updateDocumentStore` -/

theorem updateDocumentStore_stored (h : (l.documents.Store uri text).1 = none) :
    l.updateDocumentStore env uri text
      = match lspServer.analysisLoop env uri text maxRetries [] none [] (l.Store uri text).2 with
        | (.returned err, l) => (err, l)
        | (.done (some err) _, l) => (some err, l)
        | (.done none diagnostics, l) =>
          match l.UpdateDiagnostics uri diagnostics with
          | (some err, l) => (some err, l)
          | (none, l) => (none, l) := by
  simp [lspServer.updateDocumentStore, lspServer.Store, h]

theorem Store_after (h : (l.documents.Store uri text).1 = none) :
    (∃ d, (l.Store uri text).2.documents uri = some d)
    ∧ analyseCalls (l.Store uri text).2.trace = analyseCalls l.trace
    ∧ loadPromptCalls (l.Store uri text).2.trace = loadPromptCalls l.trace
    ∧ storeAnalysisCalls (l.Store uri text).2.trace = storeAnalysisCalls l.trace
    ∧ updateDiagnosticsCalls (l.Store uri text).2.trace = updateDiagnosticsCalls l.trace
    ∧ (∀ u, diagnosticsOf (l.Store uri text).2.documents u = diagnosticsOf l.documents u) := by
  obtain ⟨d, hd, _⟩ := Store_snd_self uri text l.documents h
  refine ⟨⟨d, by simpa [lspServer.Store] using hd⟩, ?_, ?_, ?_, ?_, ?_⟩
  · simp [lspServer.Store, Event.analyseArgs]
  · simp [lspServer.Store, Event.loadPromptArg]
  · simp [lspServer.Store, Event.storeAnalysisArgs]
  · simp [lspServer.Store, Event.updateDiagnosticsArgs]
  · intro u
    simp only [lspServer.Store, diagnosticsOf, LspDocuments.Store]
    cases hu : l.documents uri with
    | none =>
      by_cases huu : u = uri
      · subst huu; simp [hu]
      · simp [Function.update, huu]
    | some d0 =>
      by_cases ht : d0.text = text
      · simp [ht]
      · by_cases huu : u = uri
        · subst huu; simp [hu, ht]
        · simp [ht, Function.update, huu]

/-- C1: if `Store` succeeds, the retry prompt loads as `retryPrompt`, the backend answers
attempt `j` with `resp j` for `j = 1..k` (`1 ≤ k ≤ 5`), `resp 1 .. resp (k-1)` fail to parse and
`resp k` parses, then `updateDocumentStore` returns `nil` and the backend's `AnalyseDocument`
is called exactly `k` more times, with text `text` on attempt 1 and `retryPrompt ++ text` on
attempts `2..k`. -/
theorem updateDocumentStore_retries_until_parsed (retryPrompt : GoString) (k : Nat)
    (resp : Nat → GoString) (ds : List LspDiagnostic) (hk1 : 1 ≤ k) (hk5 : k ≤ 5)
    (hstore : (l.documents.Store uri text).1 = none)
    (hprompt : ∀ n, env.LoadPrompt n env.ParamRetryPromptFile = (retryPrompt, none))
    (hresp : ∀ j, 1 ≤ j → j ≤ k →
      env.backend.AnalyseDocument ((analyseCalls l.trace).length + (j - 1)) uri
        ((if j = 1 then [] else retryPrompt) ++ text) = .ok (resp j))
    (hfail : ∀ j, 1 ≤ j → j < k → ∃ e, env.DiagnosticsUnmarshal uri (resp j) = .error e)
    (hparse : env.DiagnosticsUnmarshal uri (resp k) = .ok ds) :
    (l.updateDocumentStore env uri text).1 = none
    ∧ analyseCalls (l.updateDocumentStore env uri text).2.trace
        = analyseCalls l.trace ++ (uri, text) :: List.replicate (k - 1) (uri, retryPrompt ++ text)
    ∧ (analyseCalls (l.updateDocumentStore env uri text).2.trace).length
        = (analyseCalls l.trace).length + k := by
  obtain ⟨hd1, hA1, hL1, -, -, -⟩ := Store_after l uri text hstore
  have hins : ∀ j, instructionAt env (loadPromptCalls (l.Store uri text).2.trace).length [] j
      = if j = 0 then [] else retryPrompt := by
    intro j
    cases j with
    | zero => rfl
    | succ j => simp [instructionAt, hprompt]
  obtain ⟨l2, err2, diags2, hloop, hA, -, -, -, ⟨d2, hd2⟩, -⟩ :=
    analysisLoop_retries env uri text (fun j => resp (j + 1)) (k - 1) 4 [] none []
      (l.Store uri text).2 (by omega) hd1
      (by
        intro j hj
        rw [hins, hA1]
        have := hresp (j + 1) (by omega) (by omega)
        simpa using this)
      (fun j hj => hfail (j + 1) (by omega) (by omega))
  have hk : k - 1 + 1 = k := by omega
  have e1 : 4 + 1 - (k - 1) = (5 - k) + 1 := by omega
  have hidx : (analyseCalls l2.trace).length = (analyseCalls l.trace).length + (k - 1) := by
    simp [hA, hA1]
  have hlast := analysisLoop_parsed env l2 uri text (5 - k)
    (instructionAt env (loadPromptCalls (l.Store uri text).2.trace).length [] (k - 1)) err2 diags2
    ds d2 (resp k) hd2
    (by
      rw [hidx, hins]
      have := hresp k hk1 (le_refl k)
      by_cases h1 : k = 1
      · subst h1; simpa using this
      · have h0 : k - 1 ≠ 0 := by omega
        simpa [h1, h0] using this)
    hparse
  have hfin : lspServer.analysisLoop env uri text maxRetries [] none [] (l.Store uri text).2
      = (.done none ds, ((l2.AnalyseDocument env uri (instructionAt env
          (loadPromptCalls (l.Store uri text).2.trace).length [] (k - 1) ++ text)).2.StoreAnalysis
            uri (resp k)).2) := by
    have : maxRetries = 4 + 1 := rfl
    rw [this, hloop, e1, hlast]
  have hcalls : analyseCalls l.trace ++ (List.range (k - 1)).map (fun j =>
        (uri, (if j = 0 then [] else retryPrompt) ++ text))
        ++ [(uri, (if k - 1 = 0 then [] else retryPrompt) ++ text)]
      = analyseCalls l.trace ++ (uri, text) :: List.replicate (k - 1) (uri, retryPrompt ++ text) := by
    interval_cases k <;> simp [List.range_succ, List.replicate]
  have hres : (l.updateDocumentStore env uri text).1 = none
      ∧ analyseCalls (l.updateDocumentStore env uri text).2.trace
        = analyseCalls l.trace ++ (uri, text) :: List.replicate (k - 1) (uri, retryPrompt ++ text) := by
    rw [updateDocumentStore_stored env l uri text hstore, hfin, ← hcalls]
    simp [lspServer.UpdateDiagnostics, lspServer.StoreAnalysis, lspServer.AnalyseDocument,
      LspDocuments.StoreAnalysis, LspDocuments.UpdateDiagnostics, hd2, hA, hA1, hins,
      Event.analyseArgs]
  refine ⟨hres.1, hres.2, ?_⟩
  rw [hres.2]
  simp
  omega

/-- C1 at `k = 5`: four responses `junk`, then `ok`; five backend calls, the last four with the
retry prompt `RETRY:` before the text. -/
theorem updateDocumentStore_retries_until_parsed_witness :
    (lspServer.fresh.updateDocumentStore (Env.parsesOnAttempt 5) (lit "file:///a.c")
        (lit "int x;")).1 = none
    ∧ analyseCalls (lspServer.fresh.updateDocumentStore (Env.parsesOnAttempt 5)
        (lit "file:///a.c") (lit "int x;")).2.trace
        = analyseCalls lspServer.fresh.trace ++ (lit "file:///a.c", lit "int x;")
            :: List.replicate (5 - 1) (lit "file:///a.c", lit "RETRY:" ++ lit "int x;")
    ∧ (analyseCalls (lspServer.fresh.updateDocumentStore (Env.parsesOnAttempt 5)
        (lit "file:///a.c") (lit "int x;")).2.trace).length
        = (analyseCalls lspServer.fresh.trace).length + 5 :=
  updateDocumentStore_retries_until_parsed (Env.parsesOnAttempt 5) lspServer.fresh
    (lit "file:///a.c") (lit "int x;") (lit "RETRY:") 5
    (fun j => if j = 5 then lit "ok" else lit "junk") [exampleDiagnostic]
    (by decide) (by decide) (by decide) (fun _ => rfl)
    (by intro j h1 h5; interval_cases j <;> rfl)
    (by intro j h1 h5; interval_cases j <;> exact ⟨"malformed analysis", rfl⟩)
    rfl

/-- C2: if `Store` succeeds and on each of the 5 attempts the backend answers (`resp j` on
attempt `j`, called with the instruction then in force) with a response that fails to parse,
then `updateDocumentStore` returns the parse error of the fifth response, the backend has
been called exactly 5 more times, `UpdateDiagnostics` is not called and no document's stored
diagnostics change. -/
theorem updateDocumentStore_exhausted (resp : Nat → GoString) (e5 : GoError)
    (hstore : (l.documents.Store uri text).1 = none)
    (hresp : ∀ j, 1 ≤ j → j ≤ 5 →
      env.backend.AnalyseDocument ((analyseCalls l.trace).length + (j - 1)) uri
        (instructionAt env (loadPromptCalls l.trace).length [] (j - 1) ++ text) = .ok (resp j))
    (hfail : ∀ j, 1 ≤ j → j < 5 → ∃ e, env.DiagnosticsUnmarshal uri (resp j) = .error e)
    (hfail5 : env.DiagnosticsUnmarshal uri (resp 5) = .error e5) :
    (l.updateDocumentStore env uri text).1 = some e5
    ∧ (analyseCalls (l.updateDocumentStore env uri text).2.trace).length
        = (analyseCalls l.trace).length + 5
    ∧ updateDiagnosticsCalls (l.updateDocumentStore env uri text).2.trace
        = updateDiagnosticsCalls l.trace
    ∧ ∀ u, diagnosticsOf (l.updateDocumentStore env uri text).2.documents u
        = diagnosticsOf l.documents u := by
  obtain ⟨hd1, hA1, hL1, -, hU1, hD1⟩ := Store_after l uri text hstore
  obtain ⟨l2, err2, diags2, hloop, hA, -, -, hU, ⟨d2, hd2⟩, hD, -⟩ :=
    analysisLoop_retries env uri text (fun j => resp (j + 1)) 4 4 [] none []
      (l.Store uri text).2 (le_refl 4) hd1
      (by
        intro j hj
        rw [hL1, hA1]
        exact hresp (j + 1) (by omega) (by omega))
      (fun j hj => hfail (j + 1) (by omega) (by omega))
  have hidx : (analyseCalls l2.trace).length = (analyseCalls l.trace).length + 4 := by
    simp [hA, hA1]
  have hlast := analysisLoop_exhausted env uri text l2
    (instructionAt env (loadPromptCalls (l.Store uri text).2.trace).length [] 4) err2 diags2
    d2 (resp 5) e5 hd2
    (by rw [hidx, hL1]; exact hresp 5 (by omega) (le_refl 5))
    hfail5
  have hfin : lspServer.analysisLoop env uri text maxRetries [] none [] (l.Store uri text).2
      = (.returned (some e5), ((l2.AnalyseDocument env uri (instructionAt env
          (loadPromptCalls (l.Store uri text).2.trace).length [] 4 ++ text)).2.StoreAnalysis
            uri (resp 5)).2) := by
    have : maxRetries = 4 + 1 := rfl
    rw [this, hloop, hlast]
  rw [updateDocumentStore_stored env l uri text hstore, hfin]
  refine ⟨rfl, ?_, ?_, ?_⟩
  · simp [lspServer.StoreAnalysis, lspServer.AnalyseDocument, hA, hA1, Event.analyseArgs]
  · simp [lspServer.StoreAnalysis, lspServer.AnalyseDocument, hU, hU1,
      Event.updateDiagnosticsArgs]
  · intro u
    rw [← hD1 u, ← hD u]
    simp only [lspServer.StoreAnalysis, lspServer.AnalyseDocument, LspDocuments.StoreAnalysis,
      hd2, diagnosticsOf]
    by_cases hu : u = uri
    · subst hu; simp [hd2]
    · simp [Function.update, hu]

/-- C2 on a backend whose five responses are all `junk`. -/
theorem updateDocumentStore_exhausted_witness :
    (lspServer.fresh.updateDocumentStore (Env.parsesOnAttempt 0) (lit "file:///a.c")
        (lit "int x;")).1 = some "malformed analysis"
    ∧ (analyseCalls (lspServer.fresh.updateDocumentStore (Env.parsesOnAttempt 0)
        (lit "file:///a.c") (lit "int x;")).2.trace).length
        = (analyseCalls lspServer.fresh.trace).length + 5
    ∧ updateDiagnosticsCalls (lspServer.fresh.updateDocumentStore (Env.parsesOnAttempt 0)
        (lit "file:///a.c") (lit "int x;")).2.trace
        = updateDiagnosticsCalls lspServer.fresh.trace
    ∧ ∀ u, diagnosticsOf (lspServer.fresh.updateDocumentStore (Env.parsesOnAttempt 0)
        (lit "file:///a.c") (lit "int x;")).2.documents u
        = diagnosticsOf lspServer.fresh.documents u :=
  updateDocumentStore_exhausted (Env.parsesOnAttempt 0) lspServer.fresh
    (lit "file:///a.c") (lit "int x;") (fun _ => lit "junk") "malformed analysis"
    (by decide)
    (by intro j h1 h5; rfl)
    (by intro j h1 h5; exact ⟨"malformed analysis", rfl⟩)
    rfl

/-- C3: if `Store` succeeds, attempts `1..k-1` (`1 ≤ k ≤ 5`) each got a response that failed to
parse, and the backend's `AnalyseDocument` returns the error `e` on attempt `k`, then
`updateDocumentStore` returns exactly `e`, that failing call is the last call it makes (no
further backend call, no `StoreAnalysis` and no `UpdateDiagnostics` for attempt `k`): the
backend has been called `k` times, `StoreAnalysis` `k - 1` times and `UpdateDiagnostics` not
at all. -/
theorem updateDocumentStore_backend_error (k : Nat) (resp : Nat → GoString) (e : GoError)
    (hk1 : 1 ≤ k) (hk5 : k ≤ 5)
    (hstore : (l.documents.Store uri text).1 = none)
    (hresp : ∀ j, 1 ≤ j → j < k →
      env.backend.AnalyseDocument ((analyseCalls l.trace).length + (j - 1)) uri
        (instructionAt env (loadPromptCalls l.trace).length [] (j - 1) ++ text) = .ok (resp j))
    (hfail : ∀ j, 1 ≤ j → j < k → ∃ e, env.DiagnosticsUnmarshal uri (resp j) = .error e)
    (herr : env.backend.AnalyseDocument ((analyseCalls l.trace).length + (k - 1)) uri
        (instructionAt env (loadPromptCalls l.trace).length [] (k - 1) ++ text) = .error e) :
    (l.updateDocumentStore env uri text).1 = some e
    ∧ (l.updateDocumentStore env uri text).2.trace.getLast?
        = some (Event.AnalyseDocument uri
            (instructionAt env (loadPromptCalls l.trace).length [] (k - 1) ++ text))
    ∧ (analyseCalls (l.updateDocumentStore env uri text).2.trace).length
        = (analyseCalls l.trace).length + k
    ∧ (storeAnalysisCalls (l.updateDocumentStore env uri text).2.trace).length
        = (storeAnalysisCalls l.trace).length + (k - 1)
    ∧ updateDiagnosticsCalls (l.updateDocumentStore env uri text).2.trace
        = updateDiagnosticsCalls l.trace := by
  obtain ⟨hd1, hA1, hL1, hS1, hU1, -⟩ := Store_after l uri text hstore
  obtain ⟨l2, err2, diags2, hloop, hA, hS, -, hU, -⟩ :=
    analysisLoop_retries env uri text (fun j => resp (j + 1)) (k - 1) 4 [] none []
      (l.Store uri text).2 (by omega) hd1
      (by
        intro j hj
        rw [hL1, hA1]
        exact hresp (j + 1) (by omega) (by omega))
      (fun j hj => hfail (j + 1) (by omega) (by omega))
  have e1 : 4 + 1 - (k - 1) = (5 - k) + 1 := by omega
  have hidx : (analyseCalls l2.trace).length = (analyseCalls l.trace).length + (k - 1) := by
    simp [hA, hA1]
  have hlast := analysisLoop_backend_error env l2 uri text (5 - k)
    (instructionAt env (loadPromptCalls (l.Store uri text).2.trace).length [] (k - 1)) err2
    diags2 e (by rw [hidx, hL1]; exact herr)
  have hfin : lspServer.analysisLoop env uri text maxRetries [] none [] (l.Store uri text).2
      = (.returned (some e), (l2.AnalyseDocument env uri (instructionAt env
          (loadPromptCalls (l.Store uri text).2.trace).length [] (k - 1) ++ text)).2) := by
    have : maxRetries = 4 + 1 := rfl
    rw [this, hloop, e1, hlast]
  rw [updateDocumentStore_stored env l uri text hstore, hfin]
  refine ⟨rfl, ?_, ?_, ?_, ?_⟩
  · simp [lspServer.AnalyseDocument, hL1]
  · simp [lspServer.AnalyseDocument, hA, hA1, Event.analyseArgs]
    omega
  · simp [lspServer.AnalyseDocument, hS, hS1, Event.storeAnalysisArgs]
  · simp [lspServer.AnalyseDocument, hU, hU1, Event.updateDiagnosticsArgs]

/-- C3 at `k = 3`: two responses `junk`, then a backend error. -/
theorem updateDocumentStore_backend_error_witness :
    (lspServer.fresh.updateDocumentStore (Env.failsOnAttempt 3) (lit "file:///a.c")
        (lit "int x;")).1 = some "backend unreachable"
    ∧ (lspServer.fresh.updateDocumentStore (Env.failsOnAttempt 3) (lit "file:///a.c")
        (lit "int x;")).2.trace.getLast?
        = some (Event.AnalyseDocument (lit "file:///a.c")
            (instructionAt (Env.failsOnAttempt 3) (loadPromptCalls lspServer.fresh.trace).length
              [] (3 - 1) ++ lit "int x;"))
    ∧ (analyseCalls (lspServer.fresh.updateDocumentStore (Env.failsOnAttempt 3)
        (lit "file:///a.c") (lit "int x;")).2.trace).length
        = (analyseCalls lspServer.fresh.trace).length + 3
    ∧ (storeAnalysisCalls (lspServer.fresh.updateDocumentStore (Env.failsOnAttempt 3)
        (lit "file:///a.c") (lit "int x;")).2.trace).length
        = (storeAnalysisCalls lspServer.fresh.trace).length + (3 - 1)
    ∧ updateDiagnosticsCalls (lspServer.fresh.updateDocumentStore (Env.failsOnAttempt 3)
        (lit "file:///a.c") (lit "int x;")).2.trace
        = updateDiagnosticsCalls lspServer.fresh.trace :=
  updateDocumentStore_backend_error (Env.failsOnAttempt 3) lspServer.fresh
    (lit "file:///a.c") (lit "int x;") 3 (fun _ => lit "junk") "backend unreachable"
    (by decide) (by decide) (by decide)
    (by intro j h1 h3; interval_cases j <;> rfl)
    (by intro j h1 h3; exact ⟨"malformed analysis", rfl⟩)
    rfl

/-! ## What a successful run leaves in the store -/

theorem analysisLoop_sound (rem : Nat) :
    ∀ (instruction : GoString) (err : Option GoError) (diagnostics : List LspDiagnostic)
      (l : lspServer) (out : LoopExit) (l2 : lspServer), rem ≠ 0 →
      lspServer.analysisLoop env uri text rem instruction err diagnostics l = (out, l2) →
      (∀ e, out = .returned e → e ≠ none)
      ∧ (∀ e ds, out = .done e ds → e = none ∧ ∃ pre arg r,
          l2.trace = l.trace ++ pre ++ [Event.AnalyseDocument uri arg, Event.StoreAnalysis uri r]
          ∧ updateDiagnosticsCalls pre = []
          ∧ (∀ u ∈ storeWriteUris pre, u = uri)
          ∧ env.backend.AnalyseDocument (analyseCalls (l.trace ++ pre)).length uri arg = .ok r
          ∧ env.DiagnosticsUnmarshal uri r = .ok ds
          ∧ (∀ u, u ≠ uri → l2.documents u = l.documents u)
          ∧ (∃ d, l2.documents uri = some d ∧ d.analysis = r)) := by
  induction rem with
  | zero => intro _ _ _ _ _ _ h; exact absurd rfl h
  | succ rem ih =>
    intro instruction err diagnostics l out l2 _ h
    rw [lspServer.analysisLoop] at h
    cases hb : env.backend.AnalyseDocument (analyseCalls l.trace).length uri
        (instruction ++ text) with
    | error e =>
      simp [lspServer.AnalyseDocument, hb] at h
      obtain ⟨rfl, rfl⟩ := h
      simp
    | ok r =>
      cases hd : l.documents uri with
      | none =>
        simp [lspServer.AnalyseDocument, lspServer.StoreAnalysis, LspDocuments.StoreAnalysis,
          hb, hd] at h
        obtain ⟨rfl, rfl⟩ := h
        simp
      | some d =>
        cases hp : env.DiagnosticsUnmarshal uri r with
        | error e =>
          by_cases hlt : maxRetries - rem < maxRetries
          · simp only [lspServer.AnalyseDocument, lspServer.StoreAnalysis,
              LspDocuments.StoreAnalysis, lspServer.LoadPrompt, hb, hd, hp, hlt, if_true] at h
            have hrem : rem ≠ 0 := by unfold maxRetries at hlt; omega
            obtain ⟨h1, h2⟩ := ih _ _ _ _ out l2 hrem h
            refine ⟨h1, ?_⟩
            intro e2 ds hout
            obtain ⟨he2, pre, arg, r2, ht, hu, hw, hresp, hparse, hother, hdoc⟩ := h2 e2 ds hout
            refine ⟨he2, [Event.AnalyseDocument uri (instruction ++ text),
              Event.StoreAnalysis uri r, Event.LoadPrompt env.ParamRetryPromptFile] ++ pre,
              arg, r2, ?_, ?_, ?_, ?_, hparse, ?_, hdoc⟩
            · simpa [List.append_assoc] using ht
            · simp [hu, Event.updateDiagnosticsArgs]
            · intro u hu2
              simp [Event.storeWriteUri] at hu2
              rcases hu2 with rfl | hu2
              · rfl
              · exact hw u hu2
            · simpa [List.append_assoc] using hresp
            · intro u hne
              rw [hother u hne]
              simp [Function.update, hne]
          · simp only [lspServer.AnalyseDocument, lspServer.StoreAnalysis,
              LspDocuments.StoreAnalysis, hb, hd, hp, hlt, if_false] at h
            simp only [Prod.mk.injEq] at h
            obtain ⟨rfl, rfl⟩ := h
            simp
        | ok ds =>
          simp only [lspServer.AnalyseDocument, lspServer.StoreAnalysis,
            LspDocuments.StoreAnalysis, hb, hd, hp, Prod.mk.injEq] at h
          obtain ⟨rfl, rfl⟩ := h
          refine ⟨by simp, ?_⟩
          intro e2 ds2 hout
          simp only [LoopExit.done.injEq] at hout
          obtain ⟨rfl, rfl⟩ := hout
          refine ⟨rfl, [], instruction ++ text, r, by simp, by simp, by simp, by simpa using hb,
            hp, ?_, ?_⟩
          · intro u hne
            simp [Function.update, hne]
          · simp

theorem updateDocumentStore_success (hstore : (l.documents.Store uri text).1 = none)
    (hok : (l.updateDocumentStore env uri text).1 = none) :
    ∃ pre arg r ds d,
      (l.updateDocumentStore env uri text).2.trace
        = l.trace ++ Event.Store uri text :: pre
            ++ [Event.AnalyseDocument uri arg, Event.StoreAnalysis uri r,
                Event.UpdateDiagnostics uri ds]
      ∧ updateDiagnosticsCalls pre = []
      ∧ (∀ u ∈ storeWriteUris pre, u = uri)
      ∧ env.backend.AnalyseDocument (analyseCalls (l.trace ++ pre)).length uri arg = .ok r
      ∧ env.DiagnosticsUnmarshal uri r = .ok ds
      ∧ (∀ u, u ≠ uri → (l.updateDocumentStore env uri text).2.documents u = l.documents u)
      ∧ (l.updateDocumentStore env uri text).2.documents uri = some d
      ∧ d.analysis = r ∧ d.diagnostics = ds := by
  rw [updateDocumentStore_stored env l uri text hstore] at hok ⊢
  cases hloop : lspServer.analysisLoop env uri text maxRetries [] none [] (l.Store uri text).2 with
  | mk out l2 =>
    obtain ⟨h1, h2⟩ := analysisLoop_sound env uri text maxRetries [] none [] (l.Store uri text).2
      out l2 (by decide) hloop
    rw [hloop] at hok
    cases out with
    | returned e =>
      exact absurd hok (h1 e rfl)
    | done e ds =>
      obtain ⟨rfl, pre, arg, r, ht, hu, hw, hresp, hparse, hother, d, hd, hda⟩ := h2 e ds rfl
      refine ⟨pre, arg, r, ds, { d with diagnostics := ds }, ?_, hu, hw, ?_, hparse, ?_, ?_,
        hda, rfl⟩
      · simp [lspServer.UpdateDiagnostics, LspDocuments.UpdateDiagnostics, hd, ht,
          lspServer.Store]
      · simpa [lspServer.Store, Event.analyseArgs] using hresp
      · intro u hne
        simp only [lspServer.UpdateDiagnostics, LspDocuments.UpdateDiagnostics, hd]
        simp only [Function.update, hne, dite_false]
        rw [hother u hne]
        exact Store_snd_other uri text l.documents u hne
      · simp [lspServer.UpdateDiagnostics, LspDocuments.UpdateDiagnostics, hd]

/-- C4: whenever `updateDocumentStore(uri, text)` returns `nil` after `Store` succeeded (so the
analysis loop ran), the calls it made end with `AnalyseDocument(uri, arg)`,
`StoreAnalysis(uri, r)`, `UpdateDiagnostics(uri, ds)`, where `r` is the backend's response to
that last backend call and `ds` is the parse of `r`; `UpdateDiagnostics` is called nowhere
else in the run, `GetDiagnostics(uri)` then returns `ds`, every store entry written in the run
is the one of `uri`, and the stored documents of all other uris are unchanged. -/
theorem updateDocumentStore_diagnostics_from_last_analysis
    (hstore : (l.documents.Store uri text).1 = none)
    (hok : (l.updateDocumentStore env uri text).1 = none) :
    ∃ pre arg r ds,
      (l.updateDocumentStore env uri text).2.trace
        = l.trace ++ Event.Store uri text :: pre
            ++ [Event.AnalyseDocument uri arg, Event.StoreAnalysis uri r,
                Event.UpdateDiagnostics uri ds]
      ∧ updateDiagnosticsCalls pre = []
      ∧ env.backend.AnalyseDocument (analyseCalls (l.trace ++ pre)).length uri arg = .ok r
      ∧ env.DiagnosticsUnmarshal uri r = .ok ds
      ∧ (l.updateDocumentStore env uri text).2.documents.GetDiagnostics uri = .ok ds
      ∧ (∀ u ∈ storeWriteUris (Event.Store uri text :: pre
            ++ [Event.AnalyseDocument uri arg, Event.StoreAnalysis uri r,
                Event.UpdateDiagnostics uri ds]), u = uri)
      ∧ (∀ u, u ≠ uri →
          (l.updateDocumentStore env uri text).2.documents u = l.documents u) := by
  obtain ⟨pre, arg, r, ds, d, ht, hu, hw, hresp, hparse, hother, hd, -, hdd⟩ :=
    updateDocumentStore_success env l uri text hstore hok
  refine ⟨pre, arg, r, ds, ht, hu, hresp, hparse, ?_, ?_, hother⟩
  · simp [LspDocuments.GetDiagnostics, hd, hdd]
  · intro u hmem
    simp [Event.storeWriteUri] at hmem
    rcases hmem with rfl | hmem | rfl
    · rfl
    · exact hw u hmem
    · rfl

/-- C4 on a run that parses on the second attempt. -/
theorem updateDocumentStore_diagnostics_from_last_analysis_witness :
    ∃ pre arg r ds,
      (lspServer.fresh.updateDocumentStore (Env.parsesOnAttempt 2) (lit "file:///a.c")
          (lit "int x;")).2.trace
        = lspServer.fresh.trace ++ Event.Store (lit "file:///a.c") (lit "int x;") :: pre
            ++ [Event.AnalyseDocument (lit "file:///a.c") arg,
                Event.StoreAnalysis (lit "file:///a.c") r,
                Event.UpdateDiagnostics (lit "file:///a.c") ds]
      ∧ updateDiagnosticsCalls pre = []
      ∧ (Env.parsesOnAttempt 2).backend.AnalyseDocument
          (analyseCalls (lspServer.fresh.trace ++ pre)).length (lit "file:///a.c") arg = .ok r
      ∧ (Env.parsesOnAttempt 2).DiagnosticsUnmarshal (lit "file:///a.c") r = .ok ds
      ∧ (lspServer.fresh.updateDocumentStore (Env.parsesOnAttempt 2) (lit "file:///a.c")
          (lit "int x;")).2.documents.GetDiagnostics (lit "file:///a.c") = .ok ds
      ∧ (∀ u ∈ storeWriteUris (Event.Store (lit "file:///a.c") (lit "int x;") :: pre
            ++ [Event.AnalyseDocument (lit "file:///a.c") arg,
                Event.StoreAnalysis (lit "file:///a.c") r,
                Event.UpdateDiagnostics (lit "file:///a.c") ds]), u = lit "file:///a.c")
      ∧ (∀ u, u ≠ lit "file:///a.c" →
          (lspServer.fresh.updateDocumentStore (Env.parsesOnAttempt 2) (lit "file:///a.c")
            (lit "int x;")).2.documents u = lspServer.fresh.documents u) :=
  updateDocumentStore_diagnostics_from_last_analysis (Env.parsesOnAttempt 2) lspServer.fresh
    (lit "file:///a.c") (lit "int x;") (by decide) (by decide)

/-- C5 (as stated) fails. From a store in which `file:///a.c` satisfies the invariant:
(1) with a backend whose responses never parse, `updateDocumentStore` returns the parse error
and leaves the document with analysis text `junk` and the diagnostics of the earlier analysis;
(2) with a backend whose response `[]` parses at once, the call succeeds, and the store
contents observable after its `StoreAnalysis` and before its `UpdateDiagnostics` hold analysis
text `[]` (which parses to no diagnostic) next to the one diagnostic of the earlier
analysis. -/
theorem observed_state_not_consistent :
    (Consistent (Env.parsesOnAttempt 0) (lit "file:///a.c") lspServer.seeded.documents
      ∧ (lspServer.seeded.updateDocumentStore (Env.parsesOnAttempt 0) (lit "file:///a.c")
          (lit "int y;")).1 = some "malformed analysis"
      ∧ ¬ Consistent (Env.parsesOnAttempt 0) (lit "file:///a.c")
          (lspServer.seeded.updateDocumentStore (Env.parsesOnAttempt 0) (lit "file:///a.c")
            (lit "int y;")).2.documents)
    ∧ (Consistent Env.findsNothing (lit "file:///a.c") lspServer.seeded.documents
      ∧ (lspServer.seeded.updateDocumentStore Env.findsNothing (lit "file:///a.c")
          (lit "int y;")).1 = none
      ∧ ∃ docs ∈ observedDuring Env.findsNothing lspServer.seeded (lit "file:///a.c")
          (lit "int y;"), ¬ Consistent Env.findsNothing (lit "file:///a.c") docs) := by
  have hseed : lspServer.seeded.documents (lit "file:///a.c")
      = some { text := lit "int x;", analysis := lit "ok", diagnostics := [exampleDiagnostic] } := by
    decide
  refine ⟨⟨?_, by decide, ?_⟩, ?_, by decide, ?_⟩
  · intro d hd
    rw [hseed] at hd
    cases hd
    rfl
  · intro h
    have hd : (lspServer.seeded.updateDocumentStore (Env.parsesOnAttempt 0) (lit "file:///a.c")
        (lit "int y;")).2.documents (lit "file:///a.c")
        = some { text := lit "int y;", analysis := lit "junk",
                 diagnostics := [exampleDiagnostic] } := by
      decide
    have h2 := h _ hd
    have h3 : (Env.parsesOnAttempt 0).DiagnosticsUnmarshal (lit "file:///a.c") (lit "junk")
        = .error "malformed analysis" := rfl
    rw [h3] at h2
    cases h2
  · intro d hd
    rw [hseed] at hd
    cases hd
    rfl
  · have hlen : 1 < (observedDuring Env.findsNothing lspServer.seeded (lit "file:///a.c")
        (lit "int y;")).length := by decide
    refine ⟨(observedDuring Env.findsNothing lspServer.seeded (lit "file:///a.c")
        (lit "int y;")).get ⟨1, hlen⟩, List.get_mem _ _ _, ?_⟩
    intro h
    have hd : (observedDuring Env.findsNothing lspServer.seeded (lit "file:///a.c")
        (lit "int y;")).get ⟨1, hlen⟩ (lit "file:///a.c")
        = some { text := lit "int y;", analysis := lit "[]",
                 diagnostics := [exampleDiagnostic] } := rfl
    have h2 := h _ hd
    have h3 : Env.findsNothing.DiagnosticsUnmarshal (lit "file:///a.c") (lit "[]")
        = .ok [] := rfl
    rw [h3] at h2
    cases h2

/-- C5 (amended): when `updateDocumentStore(uri, text)` returns `nil` after `Store` succeeded,
the document it leaves stored for `uri` has diagnostics equal to the parse of its most recent
analysis text. -/
theorem updateDocumentStore_success_consistent
    (hstore : (l.documents.Store uri text).1 = none)
    (hok : (l.updateDocumentStore env uri text).1 = none) :
    (∃ d, (l.updateDocumentStore env uri text).2.documents uri = some d)
    ∧ Consistent env uri (l.updateDocumentStore env uri text).2.documents := by
  obtain ⟨pre, arg, r, ds, d, -, -, -, -, hparse, -, hd, hda, hdd⟩ :=
    updateDocumentStore_success env l uri text hstore hok
  refine ⟨⟨d, hd⟩, ?_⟩
  intro d2 hd2
  rw [hd] at hd2
  cases hd2
  rw [hda, hdd]
  exact hparse

/-- C5 (amended) on a document stored before, reanalysed with a new text. -/
theorem updateDocumentStore_success_consistent_witness :
    (∃ d, (lspServer.seeded.updateDocumentStore Env.findsNothing (lit "file:///a.c")
        (lit "int y;")).2.documents (lit "file:///a.c") = some d)
    ∧ Consistent Env.findsNothing (lit "file:///a.c")
        (lspServer.seeded.updateDocumentStore Env.findsNothing (lit "file:///a.c")
          (lit "int y;")).2.documents :=
  updateDocumentStore_success_consistent Env.findsNothing lspServer.seeded
    (lit "file:///a.c") (lit "int y;") (by decide) (by decide)

/-! ## Notification framing -/

/-- C6: for every method name and every payload that serialises (`params` is `none` for a nil
payload, which is not serialised and leaves the `params` field unset), if the envelope with
`jsonrpc` `2.0`, the given method and the serialised payload serialises to `body`, then
`Conn.Notify` issues exactly one `Write`, on the writer of the connection, of the bytes
`Content-Length: ` ++ decimal (length of `body`) ++ `\r\n\r\n` ++ `body`, and returns the
result of that write. -/
theorem Conn_Notify_framing {Payload : Type} (json : Jsoniter Payload)
    (write : Nat → Nat → GoString → Option GoError) (s : Conn) (method : GoString)
    (params : Option Payload) (t : List Event) (jsonParams : Option GoString) (body : GoString)
    (hparams : match params with
      | none => jsonParams = none
      | some p => ∃ jp, json.MarshalParams p = .ok jp ∧ jsonParams = some jp)
    (hbody : json.MarshalMessage
      { Jsonrpc := lit "2.0", Method := method, Params := jsonParams } = .ok body) :
    (s.Notify json write method params t).2
      = t ++ [Event.Write s.writer
          (lit "Content-Length: " ++ decimal body.length ++ lit "\r\n\r\n" ++ body)]
    ∧ writeCalls (s.Notify json write method params t).2
      = writeCalls t ++ [(s.writer,
          lit "Content-Length: " ++ decimal body.length ++ lit "\r\n\r\n" ++ body)]
    ∧ (s.Notify json write method params t).1
      = write (writeCalls t).length s.writer
          (lit "Content-Length: " ++ decimal body.length ++ lit "\r\n\r\n" ++ body) := by
  have hrun : s.Notify json write method params t
      = (write (writeCalls t).length s.writer
          (lit "Content-Length: " ++ decimal body.length ++ lit "\r\n\r\n" ++ body),
         t ++ [Event.Write s.writer
          (lit "Content-Length: " ++ decimal body.length ++ lit "\r\n\r\n" ++ body)]) := by
    cases params with
    | none =>
      simp only at hparams
      subst hparams
      simp only [Conn.Notify, Conn.Write, hbody]
      cases write (writeCalls t).length s.writer
        (lit "Content-Length: " ++ decimal body.length ++ lit "\r\n\r\n" ++ body) <;> rfl
    | some p =>
      obtain ⟨jp, hjp, rfl⟩ := hparams
      simp only [Conn.Notify, Conn.Write, hjp, hbody]
      cases write (writeCalls t).length s.writer
        (lit "Content-Length: " ++ decimal body.length ++ lit "\r\n\r\n" ++ body) <;> rfl
  rw [hrun]
  refine ⟨rfl, ?_, rfl⟩
  simp [writeCalls, Event.writeArg]

/-- C6 on the empty string payload: the body has 42 bytes and the header reads
`Content-Length: 42`. -/
theorem Conn_Notify_framing_witness :
    ((⟨0, 1⟩ : Conn).Notify Jsoniter.plain (fun _ _ _ => none) (lit "x") (some []) []).2
      = [Event.Write 1 (lit ("Content-Length: 42\r\n\r\n"
          ++ "\x7b\"jsonrpc\":\"2.0\",\"method\":\"x\",\"params\":\"\"\x7d"))]
    ∧ writeCalls ((⟨0, 1⟩ : Conn).Notify Jsoniter.plain (fun _ _ _ => none) (lit "x")
        (some []) []).2
      = [(1, lit ("Content-Length: 42\r\n\r\n"
          ++ "\x7b\"jsonrpc\":\"2.0\",\"method\":\"x\",\"params\":\"\"\x7d"))]
    ∧ ((⟨0, 1⟩ : Conn).Notify Jsoniter.plain (fun _ _ _ => none) (lit "x") (some []) []).1
      = none :=
  Conn_Notify_framing Jsoniter.plain (fun _ _ _ => none) ⟨0, 1⟩ (lit "x") (some []) []
    (some (lit "\"\"")) (lit "\x7b\"jsonrpc\":\"2.0\",\"method\":\"x\",\"params\":\"\"\x7d")
    ⟨lit "\"\"", rfl, rfl⟩ rfl

/-! ## The no-op `Store` -/

theorem Store_noop_documents (docs : LspDocuments) (e : GoError)
    (h : (docs.Store uri text).1 = some e) : (docs.Store uri text).2 = docs := by
  unfold LspDocuments.Store at h ⊢
  cases hd : docs uri with
  | none => simp [hd] at h
  | some d =>
    by_cases ht : d.text = text
    · simp [ht]
    · simp [hd, ht] at h

theorem updateDocumentStore_noop_analyseCalls (e : GoError)
    (h : (l.documents.Store uri text).1 = some e) :
    analyseCalls (l.updateDocumentStore env uri text).2.trace = analyseCalls l.trace := by
  simp [lspServer.updateDocumentStore, lspServer.Store, h, Event.analyseArgs]

/-- C7: whenever `Store(uri, text)` returns an error, `updateDocumentStore` returns `nil` and
the only call it makes is that `Store`: no backend `AnalyseDocument` call, no `StoreAnalysis`
call, no `UpdateDiagnostics` call, and the store is unchanged. -/
theorem updateDocumentStore_noop (e : GoError) (h : (l.documents.Store uri text).1 = some e) :
    (l.updateDocumentStore env uri text).1 = none
    ∧ (l.updateDocumentStore env uri text).2.trace = l.trace ++ [Event.Store uri text]
    ∧ analyseCalls (l.updateDocumentStore env uri text).2.trace = analyseCalls l.trace
    ∧ storeAnalysisCalls (l.updateDocumentStore env uri text).2.trace
        = storeAnalysisCalls l.trace
    ∧ updateDiagnosticsCalls (l.updateDocumentStore env uri text).2.trace
        = updateDiagnosticsCalls l.trace
    ∧ (l.updateDocumentStore env uri text).2.documents = l.documents := by
  have hdocs := Store_noop_documents uri text l.documents e h
  simp [lspServer.updateDocumentStore, lspServer.Store, h, hdocs, Event.analyseArgs,
    Event.storeAnalysisArgs, Event.updateDiagnosticsArgs]

/-- C7 on a document stored before with the same text. -/
theorem updateDocumentStore_noop_witness :
    (lspServer.seeded.updateDocumentStore Env.findsNothing (lit "file:///a.c")
        (lit "int x;")).1 = none
    ∧ (lspServer.seeded.updateDocumentStore Env.findsNothing (lit "file:///a.c")
        (lit "int x;")).2.trace
        = lspServer.seeded.trace ++ [Event.Store (lit "file:///a.c") (lit "int x;")]
    ∧ analyseCalls (lspServer.seeded.updateDocumentStore Env.findsNothing (lit "file:///a.c")
        (lit "int x;")).2.trace = analyseCalls lspServer.seeded.trace
    ∧ storeAnalysisCalls (lspServer.seeded.updateDocumentStore Env.findsNothing
        (lit "file:///a.c") (lit "int x;")).2.trace = storeAnalysisCalls lspServer.seeded.trace
    ∧ updateDiagnosticsCalls (lspServer.seeded.updateDocumentStore Env.findsNothing
        (lit "file:///a.c") (lit "int x;")).2.trace
        = updateDiagnosticsCalls lspServer.seeded.trace
    ∧ (lspServer.seeded.updateDocumentStore Env.findsNothing (lit "file:///a.c")
        (lit "int x;")).2.documents = lspServer.seeded.documents :=
  updateDocumentStore_noop Env.findsNothing lspServer.seeded (lit "file:///a.c") (lit "int x;")
    "document already stored" (by decide)

/-! ## The document-changed handler -/

theorem Conn_Notify_trace {Payload : Type} (json : Jsoniter Payload)
    (write : Nat → Nat → GoString → Option GoError) (s : Conn) (method : GoString)
    (params : Option Payload) (t : List Event) :
    (s.Notify json write method params t).2 = t
    ∨ ∃ p, (s.Notify json write method params t).2 = t ++ [Event.Write s.writer p] := by
  unfold Conn.Notify
  cases params with
  | none =>
    simp only
    split
    · exact Or.inl rfl
    · simp only [Conn.Write]
      split
      all_goals
        rename_i heq
        simp only [Prod.mk.injEq] at heq
        obtain ⟨-, rfl⟩ := heq
        exact Or.inr ⟨_, rfl⟩
  | some p =>
    simp only
    cases json.MarshalParams p with
    | error e => exact Or.inl rfl
    | ok jp =>
      simp only
      split
      · exact Or.inl rfl
      · simp only [Conn.Write]
        split
        all_goals
          rename_i heq
          simp only [Prod.mk.injEq] at heq
          obtain ⟨-, rfl⟩ := heq
          exact Or.inr ⟨_, rfl⟩

theorem Conn_Notify_analyseCalls {Payload : Type} (json : Jsoniter Payload)
    (write : Nat → Nat → GoString → Option GoError) (s : Conn) (method : GoString)
    (params : Option Payload) (t : List Event) :
    analyseCalls (s.Notify json write method params t).2 = analyseCalls t := by
  rcases Conn_Notify_trace json write s method params t with h | ⟨p, h⟩
  · rw [h]
  · rw [h]; simp [Event.analyseArgs]

theorem NotifyGeneratedCode_analyseCalls (generatedCode notificationMethod : GoString) :
    analyseCalls (l.NotifyGeneratedCode env generatedCode notificationMethod).2.trace
      = analyseCalls l.trace := by
  unfold lspServer.NotifyGeneratedCode
  cases hc : l.conn with
  | none => rfl
  | some conn =>
    simp only
    have h := Conn_Notify_analyseCalls env.jsoniter env.Write conn notificationMethod
      (some generatedCode) l.trace
    split <;> simp_all

theorem NotifyGeneratedCode_documents (generatedCode notificationMethod : GoString) :
    (l.NotifyGeneratedCode env generatedCode notificationMethod).2.documents = l.documents := by
  unfold lspServer.NotifyGeneratedCode
  cases hc : l.conn with
  | none => rfl
  | some conn =>
    simp only
    split <;> rfl

/-- C8 (as stated) fails: the store holds `file:///a.c` with text `int x;` (a `Store` of that
text reports the no-op), the file read returns the same text, no backend call was made
before, and `OnDidChangeTextDocument` calls the backend's `AnalyseDocument` once, on that
text. -/
theorem OnDidChangeTextDocument_reanalyses_identical_text :
    (lspServer.seeded.documents.Store (lit "file:///a.c") (lit "int x;")).1
      = some "document already stored"
    ∧ ConvertFileURIToPath Env.unchangedFile (lit "file:///a.c") = .ok (lit "/a.c")
    ∧ (lspServer.seeded.ReadFileContent Env.unchangedFile (lit "/a.c")).1 = .ok (lit "int x;")
    ∧ analyseCalls lspServer.seeded.trace = []
    ∧ (lspServer.seeded.OnDidChangeTextDocument Env.unchangedFile (lit "file:///a.c")).1 = none
    ∧ analyseCalls (lspServer.seeded.OnDidChangeTextDocument Env.unchangedFile
        (lit "file:///a.c")).2.trace = [(lit "file:///a.c", lit "int x;")] :=
  ⟨by decide, rfl, rfl, by decide, by decide, by decide⟩

/-- C8 (amended): in `OnDidChangeTextDocument`, when the uri converts to a path, the file is
read, and the content read is identical to the text stored for the uri, the handler makes
exactly one backend `AnalyseDocument` call, the direct one on the content read; its nested
`updateDocumentStore` call adds none. -/
theorem OnDidChangeTextDocument_analyses_once (filePath documentContent : GoString)
    (d : Document) (hpath : ConvertFileURIToPath env uri = .ok filePath)
    (hread : env.ReadFile (readFileCalls l.trace).length filePath = .ok documentContent)
    (hd : l.documents uri = some d) (htext : d.text = documentContent) :
    analyseCalls (l.OnDidChangeTextDocument env uri).2.trace
      = analyseCalls l.trace ++ [(uri, documentContent)] := by
  have hn := NotifyGeneratedCode_analyseCalls env
    { l with trace := l.trace ++ [Event.ReadFile filePath] } (lit "AnalysisStarted")
    (lit "analysisStarted")
  have hnd := NotifyGeneratedCode_documents env
    { l with trace := l.trace ++ [Event.ReadFile filePath] } (lit "AnalysisStarted")
    (lit "analysisStarted")
  simp only [Event.analyseArgs, analyseCalls_append, analyseCalls_cons, analyseCalls_nil,
    Option.toList, List.append_nil] at hn
  simp only [lspServer.OnDidChangeTextDocument, hpath, lspServer.ReadFileContent, hread,
    lspServer.AnalyseDocument]
  generalize hl1 : lspServer.NotifyGeneratedCode env
    { l with trace := l.trace ++ [Event.ReadFile filePath] } (lit "AnalysisStarted")
    (lit "analysisStarted") = r1 at hn hnd
  have hd1 : r1.2.documents uri = some d := by rw [hnd]; exact hd
  cases hb : env.backend.AnalyseDocument (analyseCalls r1.2.trace).length uri
      documentContent with
  | error e => simp [hn, Event.analyseArgs]
  | ok analysis =>
    simp only [lspServer.StoreAnalysis, LspDocuments.StoreAnalysis, hd1]
    cases hp : env.DiagnosticsUnmarshal uri analysis with
    | error e => simp [hn, Event.analyseArgs, Event.storeAnalysisArgs]
    | ok diagnostics =>
      simp only [lspServer.UpdateDiagnostics, LspDocuments.UpdateDiagnostics,
        Function.update_same, Function.update_idem]
      rw [NotifyGeneratedCode_analyseCalls]
      have hnoop := updateDocumentStore_noop_analyseCalls env
        { r1.2 with
          documents := Function.update r1.2.documents uri
            (some { text := d.text, analysis := analysis, diagnostics := diagnostics }),
          trace := r1.2.trace ++ [Event.AnalyseDocument uri documentContent]
            ++ [Event.StoreAnalysis uri analysis] ++ [Event.UpdateDiagnostics uri diagnostics],
          observed := r1.2.observed
            ++ [Function.update r1.2.documents uri
                (some { text := d.text, analysis := analysis, diagnostics := d.diagnostics })]
            ++ [Function.update r1.2.documents uri
                (some { text := d.text, analysis := analysis, diagnostics := diagnostics })] }
        uri documentContent "document already stored"
        (by simp [LspDocuments.Store, htext])
      rw [hnoop]
      simp [hn, Event.analyseArgs]

/-- C8 (amended) on a document whose file content equals the stored text. -/
theorem OnDidChangeTextDocument_analyses_once_witness :
    analyseCalls (lspServer.seeded.OnDidChangeTextDocument Env.unchangedFile
        (lit "file:///a.c")).2.trace
      = analyseCalls lspServer.seeded.trace ++ [(lit "file:///a.c", lit "int x;")] :=
  OnDidChangeTextDocument_analyses_once Env.unchangedFile lspServer.seeded (lit "file:///a.c")
    (lit "/a.c") (lit "int x;")
    { text := lit "int x;", analysis := lit "ok", diagnostics := [exampleDiagnostic] }
    rfl rfl (by decide) rfl

/-! ## Pull diagnostics -/

theorem toUint_pred (n : Int) (h1 : 1 ≤ n) (h2 : n ≤ maxInt) :
    toUint (n - 1) = (n - 1).toNat := by
  unfold toUint
  unfold maxInt at h2
  rw [Int.emod_eq_of_lt (by omega) (by omega)]

theorem OnDiagnostic_found (ds : List LspDiagnostic)
    (h : l.documents.GetDiagnostics uri = .ok ds) :
    (l.OnDiagnostic env uri).1
      = ({ Kind := defines.DocumentDiagnosticReportKindFull,
           Items := ds.map ({ l with trace := l.trace ++ [Event.GetDiagnostics uri] }.toDiagnostic
             env uri) }, none) := by
  simp [lspServer.OnDiagnostic, lspServer.GetDiagnostics, h]

/-- C9: the severity of every item of the report of `OnDiagnostic` is the value of one
function, `diagnosticSeverity`, at the severity tag of the stored diagnostic it renders; that
function maps `advisory` to Warning, `mandatory` to Error and every other string, among them
the empty string and `other`, to Hint. -/
theorem OnDiagnostic_severity_mapping (ds : List LspDiagnostic)
    (h : l.documents.GetDiagnostics uri = .ok ds) :
    (l.OnDiagnostic env uri).1.1.Items.map (fun item => item.Severity)
      = ds.map (fun d => some (diagnosticSeverity d.Severity))
    ∧ diagnosticSeverity (lit "advisory") = .Warning
    ∧ diagnosticSeverity (lit "mandatory") = .Error
    ∧ (∀ s, s ≠ lit "advisory" → s ≠ lit "mandatory" → diagnosticSeverity s = .Hint)
    ∧ diagnosticSeverity (lit "") = .Hint
    ∧ diagnosticSeverity (lit "other") = .Hint := by
  refine ⟨?_, by decide, by decide, ?_, by decide, by decide⟩
  · rw [OnDiagnostic_found env l uri ds h]
    simp [lspServer.toDiagnostic, Function.comp_def]
  · intro s h1 h2
    simp [diagnosticSeverity, h1, h2]

/-- C9 on the stored diagnostic `exampleDiagnostic`. -/
theorem OnDiagnostic_severity_mapping_witness :
    (lspServer.diagnosed.OnDiagnostic Env.basic (lit "file:///a.c")).1.1.Items.map
        (fun item => item.Severity)
      = [exampleDiagnostic].map (fun d => some (diagnosticSeverity d.Severity))
    ∧ diagnosticSeverity (lit "advisory") = .Warning
    ∧ diagnosticSeverity (lit "mandatory") = .Error
    ∧ (∀ s, s ≠ lit "advisory" → s ≠ lit "mandatory" → diagnosticSeverity s = .Hint)
    ∧ diagnosticSeverity (lit "") = .Hint
    ∧ diagnosticSeverity (lit "other") = .Hint :=
  OnDiagnostic_severity_mapping Env.basic lspServer.diagnosed (lit "file:///a.c")
    [exampleDiagnostic] rfl

/-- C10: when the store lookup succeeds with the list `ds`, every line number of which is a Go
`int` at least 1, `OnDiagnostic` returns no error and a full report whose items are the
element-wise image of `ds`, in the same order and of the same length: item `i` has code
`source_i ++ " " ++ rule_i`, message `description_i`, the severity given by the severity
mapping, and the range from `(LineNumber_i - 1, 0)` to `(LineNumber_i - 1, 5)`. If `ds` is the
single diagnostic at line 2 with severity `mandatory`, source `lint` and rule `undecl`, the
report has exactly one item, with severity Error and code `lint undecl`. -/
theorem OnDiagnostic_report (ds : List LspDiagnostic)
    (h : l.documents.GetDiagnostics uri = .ok ds)
    (hline : ∀ d ∈ ds, 1 ≤ d.LineNumber ∧ d.LineNumber ≤ maxInt) :
    (l.OnDiagnostic env uri).1.2 = none
    ∧ (l.OnDiagnostic env uri).1.1.Kind = defines.DocumentDiagnosticReportKindFull
    ∧ (l.OnDiagnostic env uri).1.1.Items.length = ds.length
    ∧ List.Forall₂ RendersAs ds (l.OnDiagnostic env uri).1.1.Items
    ∧ (∀ d, ds = [d] → d.LineNumber = 2 → d.Severity = lit "mandatory" → d.Source = lit "lint"
        → d.Rule = lit "undecl" →
        ∃ item, (l.OnDiagnostic env uri).1.1.Items = [item]
          ∧ item.Severity = some .Error ∧ item.Code = lit "lint undecl") := by
  rw [OnDiagnostic_found env l uri ds h]
  refine ⟨rfl, rfl, by simp, ?_, ?_⟩
  · rw [List.forall₂_map_right_iff, List.forall₂_same]
    intro d hd
    obtain ⟨h1, h2⟩ := hline d hd
    simp [RendersAs, lspServer.toDiagnostic, toUint_pred _ h1 h2]
  · intro d hds hl hsev hsrc hrule
    subst hds
    refine ⟨_, rfl, ?_, ?_⟩
    · simp only [lspServer.toDiagnostic, hsev]
      decide
    · simp only [lspServer.toDiagnostic, hsrc, hrule]
      decide

/-- C10 on the stored diagnostic `exampleDiagnostic` (line 2, mandatory, lint, undecl): one
item, at line 1 columns 0 to 5, severity Error, code `lint undecl`. -/
theorem OnDiagnostic_report_witness :
    ((lspServer.diagnosed.OnDiagnostic Env.basic (lit "file:///a.c")).1.2 = none
    ∧ (lspServer.diagnosed.OnDiagnostic Env.basic (lit "file:///a.c")).1.1.Kind
        = defines.DocumentDiagnosticReportKindFull
    ∧ (lspServer.diagnosed.OnDiagnostic Env.basic (lit "file:///a.c")).1.1.Items.length
        = [exampleDiagnostic].length
    ∧ List.Forall₂ RendersAs [exampleDiagnostic]
        (lspServer.diagnosed.OnDiagnostic Env.basic (lit "file:///a.c")).1.1.Items
    ∧ (∀ d, [exampleDiagnostic] = [d] → d.LineNumber = 2 → d.Severity = lit "mandatory"
        → d.Source = lit "lint" → d.Rule = lit "undecl" →
        ∃ item, (lspServer.diagnosed.OnDiagnostic Env.basic (lit "file:///a.c")).1.1.Items
            = [item]
          ∧ item.Severity = some .Error ∧ item.Code = lit "lint undecl"))
    ∧ (lspServer.diagnosed.OnDiagnostic Env.basic (lit "file:///a.c")).1.1.Items.map
        (fun item => (item.Range, item.Severity, item.Code, item.Message))
      = [(⟨⟨1, 0⟩, ⟨1, 5⟩⟩, some .Error, lit "lint undecl", lit "foo is not declared")] :=
  ⟨OnDiagnostic_report Env.basic lspServer.diagnosed (lit "file:///a.c") [exampleDiagnostic]
    rfl (by decide), by decide⟩
/-! ## Lookup failure in pull diagnostics -/

/-- C11: when the document store lookup fails for the requested identity, `OnDiagnostic`
returns the empty report (no kind, no items) together with a `nil` error. -/
theorem OnDiagnostic_lookup_failure (e : GoError)
    (h : l.documents.GetDiagnostics uri = .error e) :
    (l.OnDiagnostic env uri).1.1 = { Kind := [], Items := [] }
    ∧ (l.OnDiagnostic env uri).1.1.Items = []
    ∧ (l.OnDiagnostic env uri).1.2 = none := by
  simp [lspServer.OnDiagnostic, lspServer.GetDiagnostics, h]

/-- C11 on a server whose store is empty. -/
theorem OnDiagnostic_lookup_failure_witness :
    (lspServer.fresh.OnDiagnostic Env.basic (lit "file:///a.c")).1.1 = { Kind := [], Items := [] }
    ∧ (lspServer.fresh.OnDiagnostic Env.basic (lit "file:///a.c")).1.1.Items = []
    ∧ (lspServer.fresh.OnDiagnostic Env.basic (lit "file:///a.c")).1.2 = none :=
  OnDiagnostic_lookup_failure Env.basic lspServer.fresh (lit "file:///a.c") "unknown document"
    rfl

/-! ## Hover -/

theorem wrapInt_of_range (i : Int) (h1 : minInt ≤ i) (h2 : i ≤ maxInt) : wrapInt i = i := by
  unfold wrapInt
  unfold minInt at h1
  unfold maxInt at h2
  rw [Int.emod_eq_of_lt (by omega) (by omega)]
  omega

theorem toInt_of_lt (n : Nat) (h : n < 2 ^ 63) : toInt n = n := by
  unfold toInt
  apply wrapInt_of_range
  · unfold minInt; omega
  · unfold maxInt; omega

theorem hoverMatches_iff (line : Nat) (d : LspDiagnostic) (hl : line < 2 ^ 63)
    (h1 : minInt < d.LineNumber) (h2 : d.LineNumber ≤ maxInt) :
    hoverMatches line d = true ↔ d.LineNumber - 1 = line := by
  unfold hoverMatches
  rw [toInt_of_lt line hl, wrapInt_of_range (d.LineNumber - 1) (by omega) (by omega)]
  simp

theorem hoverLoop_eq (line : Nat) (ds : List LspDiagnostic) :
    ∀ value : GoString,
      (∀ d ∈ ds, hoverMatches line d = true → (env.DiagnosticToJsonMarkup d).2 = none) →
      hoverLoop env line ds value
        = match (ds.filter (hoverMatches line)).getLast? with
          | some d => (env.DiagnosticToJsonMarkup d).1
          | none => value := by
  induction ds with
  | nil => intro value _; rfl
  | cons d ds ih =>
    intro value hr
    have hr2 : ∀ d2 ∈ ds, hoverMatches line d2 = true →
        (env.DiagnosticToJsonMarkup d2).2 = none :=
      fun d2 hd2 => hr d2 (List.mem_cons_of_mem _ hd2)
    by_cases hm : hoverMatches line d = true
    · have hd := hr d (List.mem_cons_self _ _) hm
      cases hj : env.DiagnosticToJsonMarkup d with
      | mk v err =>
        rw [hj] at hd
        simp only at hd
        subst hd
        simp only [hoverLoop, hm, if_true, hj]
        rw [ih v hr2, List.filter_cons_of_pos hm]
        cases hf : List.filter (hoverMatches line) ds with
        | nil => simp [hj]
        | cons d3 ds3 =>
          rw [List.getLast?_cons_cons, List.getLast?_eq_getLast _ (List.cons_ne_nil _ _)]
    · simp only [hoverLoop, hm, Bool.false_eq_true, if_false]
      rw [ih value hr2, List.filter_cons_of_neg hm]

/-- C12 (as stated) fails: the store holds two diagnostics on line 2, `firstIssue` and then
`secondIssue`, both render without error (as `first issue` and `second issue`), the first
diagnostic in list order with `LineNumber - 1 = 1` is `firstIssue`, and `OnHover` at line 1
returns the markup value `second issue`. -/
theorem OnHover_not_first_match :
    lspServer.twoOnLine.documents.GetDiagnostics (lit "file:///a.c")
      = .ok [firstIssue, secondIssue]
    ∧ [firstIssue, secondIssue].find? (fun d => d.LineNumber - 1 = 1) = some firstIssue
    ∧ Env.basic.DiagnosticToJsonMarkup firstIssue = (lit "first issue", none)
    ∧ Env.basic.DiagnosticToJsonMarkup secondIssue = (lit "second issue", none)
    ∧ (lspServer.twoOnLine.OnHover Env.basic (lit "file:///a.c") ⟨1, 0⟩).1
      = (some { Contents := { Kind := defines.MarkupKindMarkdown,
                              Value := lit "second issue" } }, none)
    ∧ lit "second issue" ≠ lit "first issue" :=
  ⟨rfl, by decide, rfl, rfl, by decide, by decide⟩

/-- C12 (amended): for every stored diagnostic list `ds` and hover line, when the rendering of
every diagnostic on the hovered line succeeds, `OnHover` returns a markdown hover, with a
`nil` error, whose value is the rendering of the LAST diagnostic in list order on the hovered
line, and the empty string when no diagnostic is on that line. A diagnostic is on the hovered
line when `LineNumber - 1` equals the line as Go `int`s, which for a line below `2^63` and a
line number above the smallest `int` is the equation `LineNumber - 1 = line`. -/
theorem OnHover_renders_last_match (ds : List LspDiagnostic) (position : defines.Position)
    (h : l.documents.GetDiagnostics uri = .ok ds)
    (hrender : ∀ d ∈ ds, hoverMatches position.Line d = true →
      (env.DiagnosticToJsonMarkup d).2 = none) :
    (l.OnHover env uri position).1
      = (some { Contents := { Kind := defines.MarkupKindMarkdown,
                              Value := lastMatchValue env position.Line ds } }, none)
    ∧ ((∀ d ∈ ds, hoverMatches position.Line d = false) →
        lastMatchValue env position.Line ds = [])
    ∧ (∀ pre d post, ds = pre ++ d :: post → hoverMatches position.Line d = true →
        (∀ d2 ∈ post, hoverMatches position.Line d2 = false) →
        lastMatchValue env position.Line ds = (env.DiagnosticToJsonMarkup d).1)
    ∧ (∀ d, position.Line < 2 ^ 63 → minInt < d.LineNumber → d.LineNumber ≤ maxInt →
        (hoverMatches position.Line d = true ↔ d.LineNumber - 1 = position.Line)) := by
  refine ⟨?_, ?_, ?_, ?_⟩
  · simp only [lspServer.OnHover, lspServer.GetDiagnostics, h, lastMatchValue]
    rw [hoverLoop_eq env position.Line ds [] hrender]
  · intro hno
    have : ds.filter (hoverMatches position.Line) = [] := by
      rw [List.filter_eq_nil_iff]
      intro d hd
      simp [hno d hd]
    simp [lastMatchValue, this]
  · intro pre d post hds hm hpost
    have hp : post.filter (hoverMatches position.Line) = [] := by
      rw [List.filter_eq_nil_iff]
      intro d2 hd2
      simp [hpost d2 hd2]
    subst hds
    simp [lastMatchValue, List.filter_append, List.filter_cons_of_pos hm, hp]
  · intro d hl h1 h2
    exact hoverMatches_iff position.Line d hl h1 h2

/-- C12 (amended) on two stored diagnostics on the hovered line. -/
theorem OnHover_renders_last_match_witness :
    (lspServer.twoOnLine.OnHover Env.basic (lit "file:///a.c") ⟨1, 0⟩).1
      = (some { Contents := { Kind := defines.MarkupKindMarkdown,
                              Value := lastMatchValue Env.basic 1 [firstIssue, secondIssue] } },
         none)
    ∧ ((∀ d ∈ [firstIssue, secondIssue], hoverMatches 1 d = false) →
        lastMatchValue Env.basic 1 [firstIssue, secondIssue] = [])
    ∧ (∀ pre d post, [firstIssue, secondIssue] = pre ++ d :: post →
        hoverMatches 1 d = true → (∀ d2 ∈ post, hoverMatches 1 d2 = false) →
        lastMatchValue Env.basic 1 [firstIssue, secondIssue]
          = (Env.basic.DiagnosticToJsonMarkup d).1)
    ∧ (∀ d, 1 < 2 ^ 63 → minInt < d.LineNumber → d.LineNumber ≤ maxInt →
        (hoverMatches 1 d = true ↔ d.LineNumber - 1 = (1 : Nat))) :=
  OnHover_renders_last_match Env.basic lspServer.twoOnLine (lit "file:///a.c")
    [firstIssue, secondIssue] ⟨1, 0⟩ rfl (fun _ _ _ => rfl)

/-- C13 (as stated) fails: on a server whose store is empty, `OnHover` returns no hover and
the lookup error `unknown document`. -/
theorem OnHover_propagates_lookup_error :
    lspServer.fresh.documents.GetDiagnostics (lit "file:///a.c") = .error "unknown document"
    ∧ (lspServer.fresh.OnHover Env.basic (lit "file:///a.c") ⟨0, 0⟩).1.1 = none
    ∧ (lspServer.fresh.OnHover Env.basic (lit "file:///a.c") ⟨0, 0⟩).1.2
      = some "unknown document" :=
  ⟨rfl, by decide, by decide⟩

/-- C13 (amended): when the document store lookup fails for the hovered identity, `OnHover`
returns no hover (`nil`) together with the lookup error: the error is propagated. -/
theorem OnHover_lookup_failure (position : defines.Position) (e : GoError)
    (h : l.documents.GetDiagnostics uri = .error e) :
    (l.OnHover env uri position).1 = (none, some e) := by
  simp [lspServer.OnHover, lspServer.GetDiagnostics, h]

/-- C13 (amended) on a server whose store is empty. -/
theorem OnHover_lookup_failure_witness :
    (lspServer.fresh.OnHover Env.basic (lit "file:///a.c") ⟨3, 7⟩).1
      = (none, some "unknown document") :=
  OnHover_lookup_failure Env.basic lspServer.fresh (lit "file:///a.c") ⟨3, 7⟩
    "unknown document" rfl

/-! ## Code actions -/

/-- C14 fails where the cursor line wraps: the store holds one diagnostic, at line 0, the
requested range starts on line `2^64 - 1`, so that no stored diagnostic has `LineNumber`
equal to `range.start.line + 1 = 2^64`; the `uint` addition `req.Range.Start.Line + 1` gives
0, and `OnCodeActionWithSliceCodeAction` returns the two actions. -/
theorem OnCodeAction_wrapped_start_line :
    lspServer.atLineZero.documents.GetDiagnostics (lit "file:///a.c") = .ok [zeroLineIssue]
    ∧ (∀ d ∈ [zeroLineIssue], d.LineNumber ≠ ((maxUint + 1 : Nat) : Int))
    ∧ actionCursorLine ⟨⟨maxUint, 0⟩, ⟨maxUint, 4⟩⟩ = 0
    ∧ (lspServer.atLineZero.OnCodeActionWithSliceCodeAction (lit "file:///a.c")
        ⟨⟨maxUint, 0⟩, ⟨maxUint, 4⟩⟩).1
      = (some [{ Title := lit "Ask LLM for Fix [FuzzLSP]",
                 Kind := some defines.CodeActionKindRefactorRewrite,
                 Data := ActionData.map (lit "file:///a.c") (some ⟨⟨maxUint, 0⟩, ⟨maxUint, 4⟩⟩),
                 Edit := none },
               { Title := lit "Explain issue [FuzzLSP]",
                 Kind := some defines.CodeActionKindQuickFix,
                 Data := ActionData.map (lit "file:///a.c") (some ⟨⟨maxUint, 0⟩, ⟨maxUint, 4⟩⟩),
                 Edit := none }], none) := by
  refine ⟨rfl, by decide, by decide, by decide⟩

/-- The listing of `OnCodeActionWithSliceCodeAction` in the arithmetic of the code: when the
diagnostics lookup succeeds with the list `ds`, for every requested range, if no diagnostic
of `ds` has `LineNumber` equal to the cursor line, the handler returns no actions and no
error; if at least one has, it returns exactly two actions and no error, in order a
refactor-rewrite action and a quick-fix (explain) action, both with data the request's uri
and the request's range. The cursor line is `int(req.Range.Start.Line + 1)` with the addition
on `uint`; it is `range.start.line + 1` whenever that is below `2^63`. -/
theorem OnCodeAction_lists_two_actions (ds : List LspDiagnostic) (range : defines.Range)
    (h : l.documents.GetDiagnostics uri = .ok ds) :
    ((∀ d ∈ ds, d.LineNumber ≠ actionCursorLine range) →
      (l.OnCodeActionWithSliceCodeAction uri range).1 = (none, none))
    ∧ ((∃ d ∈ ds, d.LineNumber = actionCursorLine range) →
      (l.OnCodeActionWithSliceCodeAction uri range).1
        = (some [{ Title := lit "Ask LLM for Fix [FuzzLSP]",
                   Kind := some defines.CodeActionKindRefactorRewrite,
                   Data := ActionData.map uri (some range), Edit := none },
                 { Title := lit "Explain issue [FuzzLSP]",
                   Kind := some defines.CodeActionKindQuickFix,
                   Data := ActionData.map uri (some range), Edit := none }], none))
    ∧ (range.Start.Line + 1 < 2 ^ 63 →
      actionCursorLine range = (range.Start.Line + 1 : Nat)) := by
  refine ⟨?_, ?_, ?_⟩
  · intro hno
    have hf : ds.filter (fun diag => decide (diag.LineNumber = actionCursorLine range)) = [] := by
      rw [List.filter_eq_nil_iff]
      intro d hd
      simp [hno d hd]
    simp [lspServer.OnCodeActionWithSliceCodeAction, lspServer.GetDiagnostics, h, hf]
  · rintro ⟨d, hd, hm⟩
    have hf : (ds.filter (fun diag => decide (diag.LineNumber = actionCursorLine range))).length
        ≠ 0 := by
      intro h0
      have hnil := List.length_eq_zero.mp h0
      rw [List.filter_eq_nil_iff] at hnil
      exact hnil d hd (by simp [hm])
    simp [lspServer.OnCodeActionWithSliceCodeAction, lspServer.GetDiagnostics, h, hf]
  · intro hlt
    unfold actionCursorLine wrapUint
    rw [Nat.mod_eq_of_lt (by omega), toInt_of_lt _ hlt]

/-- The listing on the stored diagnostic `exampleDiagnostic` of line 2 and a range that starts
on line 1, with the two actions listed there and the empty answer for a range on line 5. -/
theorem OnCodeAction_lists_two_actions_witness :
    (((∀ d ∈ [exampleDiagnostic], d.LineNumber ≠ actionCursorLine ⟨⟨1, 0⟩, ⟨1, 4⟩⟩) →
      (lspServer.diagnosed.OnCodeActionWithSliceCodeAction (lit "file:///a.c")
        ⟨⟨1, 0⟩, ⟨1, 4⟩⟩).1 = (none, none))
    ∧ ((∃ d ∈ [exampleDiagnostic], d.LineNumber = actionCursorLine ⟨⟨1, 0⟩, ⟨1, 4⟩⟩) →
      (lspServer.diagnosed.OnCodeActionWithSliceCodeAction (lit "file:///a.c")
        ⟨⟨1, 0⟩, ⟨1, 4⟩⟩).1
        = (some [{ Title := lit "Ask LLM for Fix [FuzzLSP]",
                   Kind := some defines.CodeActionKindRefactorRewrite,
                   Data := ActionData.map (lit "file:///a.c") (some ⟨⟨1, 0⟩, ⟨1, 4⟩⟩),
                   Edit := none },
                 { Title := lit "Explain issue [FuzzLSP]",
                   Kind := some defines.CodeActionKindQuickFix,
                   Data := ActionData.map (lit "file:///a.c") (some ⟨⟨1, 0⟩, ⟨1, 4⟩⟩),
                   Edit := none }], none))
    ∧ (1 + 1 < 2 ^ 63 → actionCursorLine ⟨⟨1, 0⟩, ⟨1, 4⟩⟩ = ((1 + 1 : Nat) : Int)))
    ∧ ((lspServer.diagnosed.OnCodeActionWithSliceCodeAction (lit "file:///a.c")
        ⟨⟨1, 0⟩, ⟨1, 4⟩⟩).1.1.map (fun actions => actions.map (fun a => (a.Kind, a.Data)))
        = some [(some (lit "refactor.rewrite"),
                  ActionData.map (lit "file:///a.c") (some ⟨⟨1, 0⟩, ⟨1, 4⟩⟩)),
                (some (lit "quickfix"),
                  ActionData.map (lit "file:///a.c") (some ⟨⟨1, 0⟩, ⟨1, 4⟩⟩))])
    ∧ (lspServer.diagnosed.OnCodeActionWithSliceCodeAction (lit "file:///a.c")
        ⟨⟨5, 0⟩, ⟨5, 4⟩⟩).1 = (none, none) :=
  ⟨OnCodeAction_lists_two_actions lspServer.diagnosed (lit "file:///a.c") [exampleDiagnostic]
    ⟨⟨1, 0⟩, ⟨1, 4⟩⟩ rfl, by decide, by decide⟩

theorem refactorCalls_snoc_readFile (t : List Event) (path : GoString) :
    refactorCalls (t ++ [Event.ReadFile path]) = refactorCalls t := by
  simp [refactorCalls, Event.refactorArg]

theorem explainCalls_snoc_readFile (t : List Event) (path : GoString) :
    explainCalls (t ++ [Event.ReadFile path]) = explainCalls t := by
  simp [explainCalls, Event.explainArg]

theorem goIndex_of_getElem? {α : Type} (xs : List α) (i : Int) (x : α) (h0 : 0 ≤ i)
    (h : xs[i.toNat]? = some x) : goIndex xs i = some x := by
  have hlt : i.toNat < xs.length := by
    rcases List.getElem?_eq_some_iff.mp h with ⟨hl, -⟩
    exact hl
  have : i < xs.length := by omega
  simp [goIndex, h0, this, h]

/-- C15 fails where the stored start line wraps: on the five-line document
`int x = 1\nfoo();\nreturn;\nint y;\nend` and actions whose stored range starts on line
`2^63`, far beyond the document, `int(actionRange.Start.Line)` is `-2^63`, the check
`cursorLine >= len(lines)` passes, and `lines[cursorLine]` panics: `OnCodeActionResolve`
returns no error, for the refactor action and for the explain action alike. -/
theorem OnCodeActionResolve_wrapped_start_line :
    (stringsSplit (lit "int x = 1\nfoo();\nreturn;\nint y;\nend") newline).length = 5
    ∧ farRefactorAction.Data = ActionData.map (lit "file:///a.c")
        (some ⟨⟨9223372036854775808, 0⟩, ⟨9223372036854775808, 4⟩⟩)
    ∧ toInt 9223372036854775808 = -9223372036854775808
    ∧ (lspServer.fresh.OnCodeActionResolve Env.assistant farRefactorAction).1 = .panic
    ∧ (lspServer.fresh.OnCodeActionResolve Env.assistant farExplainAction).1 = .panic := by
  refine ⟨by decide, rfl, by decide, by decide, by decide⟩

/-- The edit of `OnCodeActionResolve` in the arithmetic of the code: for data that carries the
uri `documentURI` and the range `actionRange`, when the uri converts to a path and the file is read, with `lines` the lines
of the content read and `cursorLine` the stored start line as the code reads it
(`int(actionRange.Start.Line)`, which is the start line when that is below `2^63`):
(1) if `cursorLine` is within the document, with `lineText` the line there, a refactor action
whose backend call succeeds is returned with a workspace edit of exactly one text edit,
keyed by `documentURI`, with range `actionRange` and new text the refactored line, and an
explain action whose backend call succeeds is returned with one such edit whose new text is
`/* ` ++ explanation ++ ` */\n` ++ `lineText`;
(2) if `cursorLine` is at least the number of lines, the call fails with an error and no
backend call is made. -/
theorem OnCodeActionResolve_edit (req : defines.CodeAction)
    (documentURI filePath documentContent : GoString) (actionRange : defines.Range)
    (hdata : req.Data = ActionData.map documentURI (some actionRange))
    (hpath : ConvertFileURIToPath env documentURI = .ok filePath)
    (hread : env.ReadFile (readFileCalls l.trace).length filePath = .ok documentContent) :
    (∀ lineText, 0 ≤ toInt actionRange.Start.Line →
      (stringsSplit documentContent newline)[(toInt actionRange.Start.Line).toNat]?
        = some lineText →
      (∀ refactoredText, req.Kind = some defines.CodeActionKindRefactorRewrite →
        env.backend.RefactorCodeLine (refactorCalls l.trace).length lineText
          = .ok refactoredText →
        (l.OnCodeActionResolve env req).1
          = .ok { req with Edit := some (singleEdit documentURI actionRange refactoredText) })
      ∧ (∀ explanation, req.Kind = some defines.CodeActionKindQuickFix →
        env.backend.ExplainCodeIssue (explainCalls l.trace).length lineText
          = .ok explanation →
        (l.OnCodeActionResolve env req).1
          = .ok { req with Edit := some (singleEdit documentURI actionRange
              (lit "/* " ++ explanation ++ lit " */\n" ++ lineText)) }))
    ∧ (toInt actionRange.Start.Line ≥ (stringsSplit documentContent newline).length →
      (∃ e, (l.OnCodeActionResolve env req).1 = .error e)
      ∧ backendCalls (l.OnCodeActionResolve env req).2.trace = backendCalls l.trace)
    ∧ (actionRange.Start.Line < 2 ^ 63 →
      toInt actionRange.Start.Line = (actionRange.Start.Line : Nat)) := by
  have hne : (some defines.CodeActionKindRefactorRewrite : Option GoString)
      ≠ some defines.CodeActionKindQuickFix := by decide
  have hne2 : (some defines.CodeActionKindQuickFix : Option GoString)
      ≠ some defines.CodeActionKindRefactorRewrite := fun h => hne h.symm
  obtain ⟨title, kind, data, edit⟩ := req
  simp only at hdata
  subst hdata
  refine ⟨?_, ?_, fun h => toInt_of_lt _ h⟩
  · intro lineText h0 hline
    have hidx := goIndex_of_getElem? _ _ _ h0 hline
    have hlt : ¬ toInt actionRange.Start.Line ≥ (stringsSplit documentContent newline).length := by
      rcases List.getElem?_eq_some_iff.mp hline with ⟨hl, -⟩
      omega
    refine ⟨?_, ?_⟩
    · intro refactoredText hk hb
      simp only at hk
      subst hk
      simp only [lspServer.OnCodeActionResolve, hpath, lspServer.ReadFileContent, hread,
        hlt, if_false, hidx, if_true, lspServer.RefactorCodeLine,
        refactorCalls_snoc_readFile, hb, lspServer.resolveExplain, if_neg hne, singleEdit]
    · intro explanation hk hb
      simp only at hk
      subst hk
      simp only [lspServer.OnCodeActionResolve, hpath, lspServer.ReadFileContent, hread,
        hlt, if_false, hidx, if_neg hne2, lspServer.resolveExplain, if_true,
        lspServer.ExplainCodeIssue, explainCalls_snoc_readFile, hb, singleEdit]
  · intro hge
    simp only [lspServer.OnCodeActionResolve, hpath, lspServer.ReadFileContent, hread,
      hge, if_true]
    refine ⟨⟨_, rfl⟩, ?_⟩
    simp [backendCalls, Event.isBackendCall]

/-- The edit on the document `int x = 1\nfoo();\nreturn;\nint y;\nend` and actions stored for line 1
(`foo();`): the refactor action gets the edit `bar();`, the explain action the edit
`/* foo is unknown */\nfoo();`, and for the stored start line 9 the call fails without a
backend call. -/
theorem OnCodeActionResolve_edit_witness :
    (lspServer.fresh.OnCodeActionResolve Env.assistant exampleRefactorAction).1
      = .ok { exampleRefactorAction with
          Edit := some (singleEdit (lit "file:///a.c") ⟨⟨1, 0⟩, ⟨1, 4⟩⟩ (lit "bar();")) }
    ∧ (lspServer.fresh.OnCodeActionResolve Env.assistant exampleExplainAction).1
      = .ok { exampleExplainAction with
          Edit := some (singleEdit (lit "file:///a.c") ⟨⟨1, 0⟩, ⟨1, 4⟩⟩
            (lit "/* " ++ lit "foo is unknown" ++ lit " */\n" ++ lit "foo();")) }
    ∧ ((∃ e, (lspServer.fresh.OnCodeActionResolve Env.assistant
          { exampleRefactorAction with
            Data := ActionData.map (lit "file:///a.c") (some ⟨⟨9, 0⟩, ⟨9, 4⟩⟩) }).1 = .error e)
      ∧ backendCalls (lspServer.fresh.OnCodeActionResolve Env.assistant
          { exampleRefactorAction with
            Data := ActionData.map (lit "file:///a.c") (some ⟨⟨9, 0⟩, ⟨9, 4⟩⟩) }).2.trace
        = backendCalls lspServer.fresh.trace) :=
  ⟨((OnCodeActionResolve_edit Env.assistant lspServer.fresh exampleRefactorAction
        (lit "file:///a.c") (lit "/a.c") (lit "int x = 1\nfoo();\nreturn;\nint y;\nend")
        ⟨⟨1, 0⟩, ⟨1, 4⟩⟩ rfl rfl rfl).1 (lit "foo();") (by decide) (by decide)).1
      (lit "bar();") rfl rfl,
   ((OnCodeActionResolve_edit Env.assistant lspServer.fresh exampleExplainAction
        (lit "file:///a.c") (lit "/a.c") (lit "int x = 1\nfoo();\nreturn;\nint y;\nend")
        ⟨⟨1, 0⟩, ⟨1, 4⟩⟩ rfl rfl rfl).1 (lit "foo();") (by decide) (by decide)).2
      (lit "foo is unknown") rfl rfl,
   (OnCodeActionResolve_edit Env.assistant lspServer.fresh
        { exampleRefactorAction with
          Data := ActionData.map (lit "file:///a.c") (some ⟨⟨9, 0⟩, ⟨9, 4⟩⟩) }
        (lit "file:///a.c") (lit "/a.c") (lit "int x = 1\nfoo();\nreturn;\nint y;\nend")
        ⟨⟨9, 0⟩, ⟨9, 4⟩⟩ rfl rfl rfl).2.1 (by decide)⟩

/-! ## Completion -/

/-- C16 fails on the suffix: for the document `int x = 1\nfoo();\nreturn;\nint y;\nend`
(five lines) and the cursor at line 0, character 0, four lines follow the cursor line, and
`OnCompletion` hands the backend the empty prefix and the suffix
`int x = 1\nfoo();\nreturn;`, the cursor line followed by two lines, not by three. -/
theorem OnCompletion_suffix_has_two_lines :
    stringsSplit (lit "int x = 1\nfoo();\nreturn;\nint y;\nend") newline
      = [lit "int x = 1", lit "foo();", lit "return;", lit "int y;", lit "end"]
    ∧ completionContext (lit "int x = 1\nfoo();\nreturn;\nint y;\nend") ⟨0, 0⟩
      = .ok (lit "", lit "int x = 1\nfoo();\nreturn;")
    ∧ generateCodeCalls (lspServer.fresh.OnCompletion Env.assistant (lit "file:///a.c")
        ⟨0, 0⟩).2.trace
      = [(lit "file:///a.c", lit "", lit "int x = 1\nfoo();\nreturn;", systemPrompt)]
    ∧ lit "int x = 1\nfoo();\nreturn;" ≠ lit "int x = 1\nfoo();\nreturn;\nint y;" := by
  refine ⟨by decide, by decide, by decide, by decide⟩

/-- C17 fails for a cursor whose line or character is `2^63` or more, which `int(...)` turns
negative. On the document `int x = 1\nfoo();\nreturn;\nint y;\nend`: at line `2^63` the check
`line >= len(lines)` passes and the slice `lines[startLine:line]` panics; at line 0 and
character `2^63`, which is beyond the cursor line, no error is returned and the backend is
called. -/
theorem OnCompletion_wrapped_cursor :
    toInt 9223372036854775808 = -9223372036854775808
    ∧ completionContext (lit "int x = 1\nfoo();\nreturn;\nint y;\nend")
        ⟨9223372036854775808, 0⟩ = .panic
    ∧ (lspServer.fresh.OnCompletion Env.assistant (lit "file:///a.c")
        ⟨9223372036854775808, 0⟩).1 = .panic
    ∧ completionContext (lit "int x = 1\nfoo();\nreturn;\nint y;\nend")
        ⟨0, 9223372036854775808⟩ = .ok (lit "", lit "foo();\nreturn;")
    ∧ completeCodeCalls (lspServer.fresh.OnCompletion Env.assistant (lit "file:///a.c")
        ⟨0, 9223372036854775808⟩).2.trace
      = [(lit "file:///a.c", lit "", systemPrompt)] := by
  refine ⟨by decide, by decide, by decide, by decide, by decide⟩

theorem goSlice_of_bounds {α : Type} (xs : List α) (lo hi : Int) (h0 : 0 ≤ lo) (h1 : lo ≤ hi)
    (h2 : hi ≤ xs.length) :
    goSlice xs lo hi = some ((xs.drop lo.toNat).take (hi.toNat - lo.toNat)) := by
  simp [goSlice, h0, h1, h2]

theorem drop_take_two {α : Type} (xs : List α) (n : Nat) (h : n < xs.length) :
    (xs.drop (n + 1)).take (min (n + 3) xs.length - (n + 1)) = (xs.drop (n + 1)).take 2 := by
  by_cases h3 : n + 3 ≤ xs.length
  · rw [Nat.min_eq_left h3]
    congr 1
    omega
  · have hmin : min (n + 3) xs.length = xs.length := Nat.min_eq_right (by omega)
    rw [hmin, List.take_of_length_le (by simp), List.take_of_length_le (by simp; omega)]

theorem completionSuffix_in_range (lines : List GoString) (line character : Int)
    (current pfx : GoString) (h0 : 0 ≤ line) (hl : line < 2 ^ 62) (hlt : line < lines.length)
    (hc0 : 0 ≤ character) (hle : character ≤ current.length) :
    completionSuffix lines line character current pfx
      = .ok (pfx,
          if character.toNat < current.length then
            current.drop character.toNat ++ lit "\n"
              ++ stringsJoin ((lines.drop (line.toNat + 1)).take 2) (lit "\n")
          else stringsJoin ((lines.drop (line.toNat + 1)).take 2) (lit "\n")) := by
  have hnext : wrapInt (line + 1) = line + 1 :=
    wrapInt_of_range _ (by unfold minInt; omega) (by unfold maxInt; omega)
  have h3 : wrapInt (line + 3) = line + 3 :=
    wrapInt_of_range _ (by unfold minInt; omega) (by unfold maxInt; omega)
  have hend : (if wrapInt (line + 3) > (lines.length : Int) then (lines.length : Int)
      else wrapInt (line + 3)) = ((min (line.toNat + 3) lines.length : Nat) : Int) := by
    rw [h3]
    split <;> omega
  have hslice : goSlice lines (line + 1) ((min (line.toNat + 3) lines.length : Nat) : Int)
      = some ((lines.drop (line.toNat + 1)).take 2) := by
    rw [goSlice_of_bounds _ _ _ (by omega) (by omega) (by omega)]
    have e1 : (line + 1).toNat = line.toNat + 1 := by omega
    have e2 : ((min (line.toNat + 3) lines.length : Nat) : Int).toNat
        = min (line.toNat + 3) lines.length := by omega
    rw [e1, e2, drop_take_two _ _ (by omega)]
  unfold completionSuffix
  simp only [hend, hnext, hslice]
  by_cases hin : character.toNat < current.length
  · have hs : goSlice current character current.length
        = some (current.drop character.toNat) := by
      rw [goSlice_of_bounds _ _ _ hc0 hle (le_refl _), List.take_of_length_le (by simp)]
    have hcond : character ≥ 0 ∧ character < (current.length : Int) := by omega
    simp only [hcond, and_self, if_true, hs, hin]
  · have hcond : ¬ (character ≥ 0 ∧ character < (current.length : Int)) := by omega
    simp only [hcond, if_false, hin]

theorem completionWindow_line_out_of_range (lines : List GoString) (line character : Int)
    (h : line ≥ lines.length) :
    completionWindow lines line character = .error "line number out of range" := by
  unfold completionWindow
  simp only [h, if_true]

theorem completionWindow_in_range (lines : List GoString) (line character : Int)
    (current : GoString) (h0 : 0 ≤ line) (hl : line < 2 ^ 62) (hc0 : 0 ≤ character)
    (hcur : lines[line.toNat]? = some current) :
    (character > current.length →
      completionWindow lines line character = .error "character position out of range")
    ∧ (character ≤ current.length →
      completionWindow lines line character
        = .ok
          (if 0 < character.toNat then
              stringsJoin ((lines.drop (line.toNat - 3)).take (min 3 line.toNat)) (lit "\n")
                ++ lit "\n" ++ current.take character.toNat
            else stringsJoin ((lines.drop (line.toNat - 3)).take (min 3 line.toNat)) (lit "\n"),
           if character.toNat < current.length then
              current.drop character.toNat ++ lit "\n"
                ++ stringsJoin ((lines.drop (line.toNat + 1)).take 2) (lit "\n")
            else stringsJoin ((lines.drop (line.toNat + 1)).take 2) (lit "\n"))) := by
  have hlt : line < lines.length := by
    rcases List.getElem?_eq_some_iff.mp hcur with ⟨hl2, -⟩
    omega
  have hnot : ¬ line ≥ (lines.length : Int) := by omega
  have h3 : wrapInt (line - 3) = line - 3 :=
    wrapInt_of_range _ (by unfold minInt; omega) (by unfold maxInt; omega)
  have hstart : (if wrapInt (line - 3) < 0 then (0 : Int) else wrapInt (line - 3))
      = ((line.toNat - 3 : Nat) : Int) := by
    rw [h3]
    split <;> omega
  have hslice : goSlice lines ((line.toNat - 3 : Nat) : Int) line
      = some ((lines.drop (line.toNat - 3)).take (min 3 line.toNat)) := by
    rw [goSlice_of_bounds _ _ _ (by omega) (by omega) (by omega)]
    have e1 : ((line.toNat - 3 : Nat) : Int).toNat = line.toNat - 3 := by omega
    have e2 : line.toNat - (line.toNat - 3) = min 3 line.toNat := by omega
    rw [e1, e2]
  have hidx : goIndex lines line = some current := goIndex_of_getElem? _ _ _ h0 hcur
  refine ⟨?_, ?_⟩
  · intro hbig
    have h1 : ¬ (character > 0 ∧ character ≤ (current.length : Int)) := by omega
    unfold completionWindow
    simp only [hnot, if_false, hstart, hslice, hidx, h1, hbig, if_true]
  · intro hle
    have hsuf := fun pfx => completionSuffix_in_range lines line character current pfx h0 hl hlt
      hc0 hle
    by_cases hpos : 0 < character.toNat
    · have h1 : character > 0 ∧ character ≤ (current.length : Int) := by omega
      have hs : goSlice current 0 character = some (current.take character.toNat) := by
        rw [goSlice_of_bounds _ _ _ (le_refl _) hc0 hle]
        simp
      unfold completionWindow
      simp only [hnot, if_false, hstart, hslice, hidx, h1, and_self, if_true, hs, hsuf, hpos]
    · have h1 : ¬ (character > 0 ∧ character ≤ (current.length : Int)) := by omega
      have h2 : ¬ character > (current.length : Int) := by omega
      unfold completionWindow
      simp only [hnot, if_false, hstart, hslice, hidx, h1, h2, hsuf, hpos]

/-- What the context extraction of `OnCompletion` computes for a cursor below the `int` wrap,
on a non-empty document: an error for a line that is not in the document or a character
beyond the cursor line `current`, and else the prefix made of the `min 3 line` lines before
the cursor line and, for a character above 0, a newline and the cursor line up to the
character, and the suffix made of, for a character inside the cursor line, the rest of the
cursor line and a newline, and of the at most TWO lines after the cursor line. -/
theorem completionContext_below_wrap (documentContent : GoString) (position : defines.Position)
    (hne : documentContent ≠ []) (hl : position.Line < 2 ^ 62)
    (hc : position.Character < 2 ^ 63) :
    ((stringsSplit documentContent newline).length ≤ position.Line →
      completionContext documentContent position = .error "line number out of range")
    ∧ (∀ current, (stringsSplit documentContent newline)[position.Line]? = some current →
      (current.length < position.Character →
        completionContext documentContent position
          = .error "character position out of range")
      ∧ (position.Character ≤ current.length →
        completionContext documentContent position
          = .ok
            (if 0 < position.Character then
                stringsJoin (((stringsSplit documentContent newline).drop
                  (position.Line - 3)).take (min 3 position.Line)) (lit "\n")
                  ++ lit "\n" ++ current.take position.Character
              else
                stringsJoin (((stringsSplit documentContent newline).drop
                  (position.Line - 3)).take (min 3 position.Line)) (lit "\n"),
             if position.Character < current.length then
                current.drop position.Character ++ lit "\n"
                  ++ stringsJoin (((stringsSplit documentContent newline).drop
                      (position.Line + 1)).take 2) (lit "\n")
              else
                stringsJoin (((stringsSplit documentContent newline).drop
                  (position.Line + 1)).take 2) (lit "\n")))) := by
  have hline : toInt position.Line = (position.Line : Nat) := toInt_of_lt _ (by omega)
  have hchar : toInt position.Character = (position.Character : Nat) := toInt_of_lt _ hc
  have hctx : completionContext documentContent position
      = completionWindow (stringsSplit documentContent newline) (toInt position.Line)
          (toInt position.Character) := by
    unfold completionContext
    rw [if_neg hne]
  have hlt0 : (0 : Int) ≤ toInt position.Line := by rw [hline]; omega
  have hlt62 : toInt position.Line < 2 ^ 62 := by rw [hline]; omega
  have hc0 : (0 : Int) ≤ toInt position.Character := by rw [hchar]; omega
  have hn1 : (toInt position.Line).toNat = position.Line := by rw [hline]; omega
  have hn2 : (toInt position.Character).toNat = position.Character := by rw [hchar]; omega
  rw [hctx]
  refine ⟨?_, ?_⟩
  · intro hge
    exact completionWindow_line_out_of_range _ _ _ (by rw [hline]; omega)
  · intro current hcur
    have hw := completionWindow_in_range (stringsSplit documentContent newline)
      (toInt position.Line) (toInt position.Character) current hlt0 hlt62 hc0
      (by rw [hn1]; exact hcur)
    rw [hn1, hn2] at hw
    refine ⟨fun hbig => hw.1 (by rw [hchar]; omega), fun hle => hw.2 (by rw [hchar]; omega)⟩

/-- With the file read, `OnCompletion` returns the error of the context extraction (empty
content, line out of range, character out of range) without any backend call, and panics
where the extraction panics. -/
theorem OnCompletion_rejects_before_backend (position : defines.Position)
    (filePath documentContent : GoString)
    (hpath : ConvertFileURIToPath env uri = .ok filePath)
    (hread : env.ReadFile (readFileCalls l.trace).length filePath = .ok documentContent) :
    (∀ e, completionContext documentContent position = .error e →
      (l.OnCompletion env uri position).1 = .error e
      ∧ backendCalls (l.OnCompletion env uri position).2.trace = backendCalls l.trace)
    ∧ (completionContext documentContent position = .panic →
      (l.OnCompletion env uri position).1 = .panic)
    ∧ (documentContent = [] →
      completionContext documentContent position
        = .error "failed to retrieve document content") := by
  refine ⟨?_, ?_, ?_⟩
  · intro e he
    simp [lspServer.OnCompletion, hpath, lspServer.ReadFileContent, hread, he, backendCalls,
      Event.isBackendCall]
  · intro hp
    simp [lspServer.OnCompletion, hpath, lspServer.ReadFileContent, hread, hp]
  · intro h0
    simp [completionContext, h0]

/-- With the file read and a context extracted, the prefix and the suffix `OnCompletion`
hands to the backend are the extracted ones: `CompleteCode` gets the prefix and, when it
succeeds, `GenerateCode` gets the prefix and the suffix. -/
theorem OnCompletion_passes_context (position : defines.Position)
    (filePath documentContent pfx suffix : GoString)
    (hpath : ConvertFileURIToPath env uri = .ok filePath)
    (hread : env.ReadFile (readFileCalls l.trace).length filePath = .ok documentContent)
    (hctx : completionContext documentContent position = .ok (pfx, suffix)) :
    completeCodeCalls (l.OnCompletion env uri position).2.trace
      = completeCodeCalls l.trace ++ [(uri, pfx, systemPrompt)]
    ∧ (∀ completions,
      env.backend.CompleteCode (completeCodeCalls l.trace).length uri pfx systemPrompt
        = .ok completions →
      generateCodeCalls (l.OnCompletion env uri position).2.trace
        = generateCodeCalls l.trace ++ [(uri, pfx, suffix, systemPrompt)]) := by
  have hnw : ∀ (s : lspServer) (a b : GoString),
      completeCodeCalls (s.NotifyGeneratedCode env a b).2.trace = completeCodeCalls s.trace
      ∧ generateCodeCalls (s.NotifyGeneratedCode env a b).2.trace
        = generateCodeCalls s.trace := by
    intro s a b
    unfold lspServer.NotifyGeneratedCode
    cases hc : s.conn with
    | none => exact ⟨rfl, rfl⟩
    | some conn =>
      simp only
      rcases Conn_Notify_trace env.jsoniter env.Write conn b (some a) s.trace with h | ⟨p, h⟩
      · split <;> simp_all
      · split <;> simp_all [completeCodeCalls, generateCodeCalls, Event.completeCodeArgs,
          Event.generateCodeArgs]
  have hidx : (completeCodeCalls (l.trace ++ [Event.ReadFile filePath])).length
      = (completeCodeCalls l.trace).length := by
    simp [completeCodeCalls, Event.completeCodeArgs]
  refine ⟨?_, ?_⟩
  · simp only [lspServer.OnCompletion, hpath, lspServer.ReadFileContent, hread, hctx,
      lspServer.CompleteCode, hidx]
    cases hcc : env.backend.CompleteCode (completeCodeCalls l.trace).length uri pfx
        systemPrompt with
    | error e => simp [completeCodeCalls, Event.completeCodeArgs]
    | ok completions =>
      simp only [lspServer.GenerateCode]
      split
      · rename_i heq
        injection heq with h1 h2
        subst h2
        simp [completeCodeCalls, Event.completeCodeArgs]
      · rename_i heq
        injection heq with h1 h2
        subst h2
        simp only [(hnw _ _ _).1]
        simp [completeCodeCalls, Event.completeCodeArgs]
  · intro completions hcc
    simp only [lspServer.OnCompletion, hpath, lspServer.ReadFileContent, hread, hctx,
      lspServer.CompleteCode, hidx, hcc, lspServer.GenerateCode]
    split
    · rename_i heq
      injection heq with h1 h2
      subst h2
      simp [generateCodeCalls, Event.generateCodeArgs]
    · rename_i heq
      injection heq with h1 h2
      subst h2
      simp only [(hnw _ _ _).2]
      simp [generateCodeCalls, Event.generateCodeArgs]

/-! ## Lifecycle notifications -/

theorem NotifyGeneratedCode_attached (c : Conn) (method payload frame : GoString)
    (hconn : l.conn = some c) (hframe : notifyFrame env method payload = some frame) :
    (l.NotifyGeneratedCode env payload method).2
      = { l with trace := l.trace ++ [Event.Write c.writer frame] } := by
  unfold notifyFrame at hframe
  cases hp : env.jsoniter.MarshalParams payload with
  | error e => simp [hp] at hframe
  | ok jp =>
    cases hm : env.jsoniter.MarshalMessage
        { Jsonrpc := lit "2.0", Method := method, Params := some jp } with
    | error e => simp [hp, hm] at hframe
    | ok body =>
      simp only [hp, hm, Option.some.injEq] at hframe
      subst hframe
      simp only [lspServer.NotifyGeneratedCode, hconn, Conn.Notify, hp, hm, Conn.Write]
      cases env.Write (writeCalls l.trace).length c.writer
        (lit "Content-Length: " ++ decimal body.length ++ lit "\r\n\r\n" ++ body) <;> rfl

theorem analysisLoop_extends (rem : Nat) :
    ∀ (instruction : GoString) (err : Option GoError) (diagnostics : List LspDiagnostic)
      (l : lspServer),
      (∃ rest, (lspServer.analysisLoop env uri text rem instruction err diagnostics l).2.trace
        = l.trace ++ rest)
      ∧ (lspServer.analysisLoop env uri text rem instruction err diagnostics l).2.conn
        = l.conn := by
  induction rem with
  | zero => intro _ _ _ l; exact ⟨⟨[], by simp [lspServer.analysisLoop]⟩, rfl⟩
  | succ rem ih =>
    intro instruction err diagnostics l
    rw [lspServer.analysisLoop]
    cases hb : env.backend.AnalyseDocument (analyseCalls l.trace).length uri
        (instruction ++ text) with
    | error e =>
      exact ⟨⟨[Event.AnalyseDocument uri (instruction ++ text)],
        by simp [lspServer.AnalyseDocument, hb]⟩, by simp [lspServer.AnalyseDocument, hb]⟩
    | ok r =>
      cases hs : l.documents.StoreAnalysis uri r with
      | mk serr docs2 =>
        cases serr with
        | some e =>
          exact ⟨⟨[Event.AnalyseDocument uri (instruction ++ text), Event.StoreAnalysis uri r],
            by simp [lspServer.AnalyseDocument, lspServer.StoreAnalysis, hb, hs]⟩,
            by simp [lspServer.AnalyseDocument, lspServer.StoreAnalysis, hb, hs]⟩
        | none =>
          cases hp : env.DiagnosticsUnmarshal uri r with
          | ok ds =>
            exact ⟨⟨[Event.AnalyseDocument uri (instruction ++ text),
              Event.StoreAnalysis uri r],
              by simp [lspServer.AnalyseDocument, lspServer.StoreAnalysis, hb, hs, hp]⟩,
              by simp [lspServer.AnalyseDocument, lspServer.StoreAnalysis, hb, hs, hp]⟩
          | error e =>
            by_cases hlt : maxRetries - rem < maxRetries
            · simp only [lspServer.AnalyseDocument, lspServer.StoreAnalysis, hb, hs, hp, hlt,
                if_true, lspServer.LoadPrompt]
              obtain ⟨⟨rest, hrest⟩, hconn⟩ := ih
                (env.LoadPrompt (loadPromptCalls (l.trace
                  ++ [Event.AnalyseDocument uri (instruction ++ text)]
                  ++ [Event.StoreAnalysis uri r])).length env.ParamRetryPromptFile).1
                (env.LoadPrompt (loadPromptCalls (l.trace
                  ++ [Event.AnalyseDocument uri (instruction ++ text)]
                  ++ [Event.StoreAnalysis uri r])).length env.ParamRetryPromptFile).2 []
                { l with
                  documents := docs2,
                  trace := l.trace ++ [Event.AnalyseDocument uri (instruction ++ text)]
                    ++ [Event.StoreAnalysis uri r]
                    ++ [Event.LoadPrompt env.ParamRetryPromptFile],
                  observed := l.observed ++ [docs2] }
              exact ⟨⟨[Event.AnalyseDocument uri (instruction ++ text),
                Event.StoreAnalysis uri r, Event.LoadPrompt env.ParamRetryPromptFile] ++ rest,
                by rw [hrest]; simp⟩, by rw [hconn]⟩
            · exact ⟨⟨[Event.AnalyseDocument uri (instruction ++ text),
                Event.StoreAnalysis uri r],
                by simp [lspServer.AnalyseDocument, lspServer.StoreAnalysis, hb, hs, hp, hlt]⟩,
                by simp [lspServer.AnalyseDocument, lspServer.StoreAnalysis, hb, hs, hp, hlt]⟩

theorem updateDocumentStore_extends :
    (∃ rest, (l.updateDocumentStore env uri text).2.trace
      = l.trace ++ Event.Store uri text :: rest)
    ∧ (l.updateDocumentStore env uri text).2.conn = l.conn := by
  unfold lspServer.updateDocumentStore
  cases hst : l.documents.Store uri text with
  | mk serr docs2 =>
    cases serr with
    | some e => exact ⟨⟨[], by simp [lspServer.Store, hst]⟩, by simp [lspServer.Store, hst]⟩
    | none =>
      simp only [lspServer.Store, hst]
      obtain ⟨⟨rest, hrest⟩, hconn⟩ := analysisLoop_extends env uri text maxRetries [] none []
        { l with documents := docs2, trace := l.trace ++ [Event.Store uri text],
                 observed := l.observed ++ [docs2] }
      cases hloop : lspServer.analysisLoop env uri text maxRetries [] none []
        { l with documents := docs2, trace := l.trace ++ [Event.Store uri text],
                 observed := l.observed ++ [docs2] } with
      | mk out l2 =>
        rw [hloop] at hrest hconn
        simp only at hrest hconn
        cases out with
        | returned e => exact ⟨⟨rest, by simp [hrest]⟩, hconn⟩
        | done e ds =>
          cases e with
          | some e => exact ⟨⟨rest, by simp [hrest]⟩, hconn⟩
          | none =>
            simp only
            cases hu : l2.documents.UpdateDiagnostics uri ds with
            | mk uerr docs3 =>
              cases uerr with
              | some e =>
                exact ⟨⟨rest ++ [Event.UpdateDiagnostics uri ds],
                  by simp [lspServer.UpdateDiagnostics, hu, hrest]⟩,
                  by simp [lspServer.UpdateDiagnostics, hu, hconn]⟩
              | none =>
                exact ⟨⟨rest ++ [Event.UpdateDiagnostics uri ds],
                  by simp [lspServer.UpdateDiagnostics, hu, hrest]⟩,
                  by simp [lspServer.UpdateDiagnostics, hu, hconn]⟩

set_option maxRecDepth 8000 in
/-- C18 fails for the opened and for the saved handler. With a connection attached,
`OnDidOpenTextDocument` writes the `analysisStarted` notification, then calls
`updateDocumentStore` (`Store`, the analysis, the store writes) and writes no `analysisDone`
after it; `OnDidSaveTextDocument` reads the file and calls `updateDocumentStore` without
writing any notification. The changed handler `OnDidChangeTextDocument` writes both, the
`analysisDone` notification after the `Store` of its call of `updateDocumentStore`. -/
theorem lifecycle_not_bracketed :
    lspServer.fresh.conn = some ⟨0, 1⟩
    ∧ notifyFrame Env.findsNothing (lit "analysisStarted") (lit "AnalysisStarted")
      = some startedFrame
    ∧ notifyFrame Env.findsNothing (lit "analysisDone") (lit "AnalysisDone") = some doneFrame
    ∧ (lspServer.fresh.OnDidOpenTextDocument Env.findsNothing (lit "file:///a.c")
        (lit "int x;")).2.trace
      = [Event.Write 1 startedFrame,
         Event.Store (lit "file:///a.c") (lit "int x;"),
         Event.AnalyseDocument (lit "file:///a.c") (lit "int x;"),
         Event.StoreAnalysis (lit "file:///a.c") (lit "[]"),
         Event.UpdateDiagnostics (lit "file:///a.c") []]
    ∧ (lspServer.fresh.OnDidSaveTextDocument Env.unchangedFile (lit "file:///a.c")).2.trace
      = [Event.ReadFile (lit "/a.c"),
         Event.Store (lit "file:///a.c") (lit "int x;"),
         Event.AnalyseDocument (lit "file:///a.c") (lit "int x;"),
         Event.StoreAnalysis (lit "file:///a.c") (lit "[]"),
         Event.UpdateDiagnostics (lit "file:///a.c") []]
    ∧ writeCalls (lspServer.fresh.OnDidSaveTextDocument Env.unchangedFile
        (lit "file:///a.c")).2.trace = []
    ∧ (lspServer.seeded.OnDidChangeTextDocument Env.unchangedFile (lit "file:///a.c")).2.trace
      = [Event.ReadFile (lit "/a.c"), Event.Write 1 startedFrame,
         Event.AnalyseDocument (lit "file:///a.c") (lit "int x;"),
         Event.StoreAnalysis (lit "file:///a.c") (lit "[]"),
         Event.UpdateDiagnostics (lit "file:///a.c") [],
         Event.Store (lit "file:///a.c") (lit "int x;"), Event.Write 1 doneFrame] := by
  refine ⟨rfl, rfl, rfl, rfl, rfl, rfl, rfl⟩

/-- The lifecycle notifications of the three handlers, for every server with a connection
attached and notifications that serialise. `OnDidOpenTextDocument` is the write of
`analysisStarted` followed by the call of `updateDocumentStore`, whose result it returns, so
that nothing is written after the call. `OnDidSaveTextDocument`, when it reads a non-empty
file, is the read followed by the call of `updateDocumentStore`. `OnDidChangeTextDocument`,
when its own analysis succeeds, calls `updateDocumentStore` on the server that its read, its
`analysisStarted` write and its analysis have left, and writes `analysisDone` after the
call. -/
theorem lifecycle_notifications (c : Conn) (startedBytes doneBytes : GoString)
    (hconn : l.conn = some c)
    (hstarted : notifyFrame env (lit "analysisStarted") (lit "AnalysisStarted")
      = some startedBytes)
    (hdone : notifyFrame env (lit "analysisDone") (lit "AnalysisDone") = some doneBytes) :
    l.OnDidOpenTextDocument env uri text
      = lspServer.updateDocumentStore env
          { l with trace := l.trace ++ [Event.Write c.writer startedBytes] } uri text
    ∧ (∀ filePath content,
      ConvertFileURIToPath env uri = .ok filePath →
      env.ReadFile (readFileCalls l.trace).length filePath = .ok content →
      content ≠ [] →
      l.OnDidSaveTextDocument env uri
        = lspServer.updateDocumentStore env
            { l with trace := l.trace ++ [Event.ReadFile filePath] } uri content)
    ∧ (∀ filePath content analysis ds d,
      ConvertFileURIToPath env uri = .ok filePath →
      env.ReadFile (readFileCalls l.trace).length filePath = .ok content →
      env.backend.AnalyseDocument (analyseCalls l.trace).length uri content = .ok analysis →
      l.documents uri = some d →
      env.DiagnosticsUnmarshal uri analysis = .ok ds →
      (l.OnDidChangeTextDocument env uri).2.trace
        = (lspServer.updateDocumentStore env
            { l with
              documents := Function.update l.documents uri
                (some { text := d.text, analysis := analysis, diagnostics := ds }),
              trace := l.trace ++ [Event.ReadFile filePath]
                ++ [Event.Write c.writer startedBytes]
                ++ [Event.AnalyseDocument uri content] ++ [Event.StoreAnalysis uri analysis]
                ++ [Event.UpdateDiagnostics uri ds],
              observed := l.observed
                ++ [Function.update l.documents uri
                    (some { text := d.text, analysis := analysis,
                            diagnostics := d.diagnostics })]
                ++ [Function.update l.documents uri
                    (some { text := d.text, analysis := analysis, diagnostics := ds })] }
            uri content).2.trace
          ++ [Event.Write c.writer doneBytes]) := by
  refine ⟨?_, ?_, ?_⟩
  · have hn := NotifyGeneratedCode_attached env l c (lit "analysisStarted")
      (lit "AnalysisStarted") startedBytes hconn hstarted
    simp only [lspServer.OnDidOpenTextDocument, hn]
  · intro filePath content hpath hread hne
    simp only [lspServer.OnDidSaveTextDocument, hpath, lspServer.ReadFileContent, hread,
      if_pos hne]
  · intro filePath content analysis ds d hpath hread hb hd hp
    have hn := NotifyGeneratedCode_attached env
      { l with trace := l.trace ++ [Event.ReadFile filePath] } c (lit "analysisStarted")
      (lit "AnalysisStarted") startedBytes hconn hstarted
    have hidx : (analyseCalls (l.trace ++ [Event.ReadFile filePath]
        ++ [Event.Write c.writer startedBytes])).length = (analyseCalls l.trace).length := by
      simp [Event.analyseArgs]
    obtain ⟨-, hc2⟩ := updateDocumentStore_extends env
      { l with
        documents := Function.update l.documents uri
          (some { text := d.text, analysis := analysis, diagnostics := ds }),
        trace := l.trace ++ [Event.ReadFile filePath] ++ [Event.Write c.writer startedBytes]
          ++ [Event.AnalyseDocument uri content] ++ [Event.StoreAnalysis uri analysis]
          ++ [Event.UpdateDiagnostics uri ds],
        observed := l.observed
          ++ [Function.update l.documents uri
              (some { text := d.text, analysis := analysis, diagnostics := d.diagnostics })]
          ++ [Function.update l.documents uri
              (some { text := d.text, analysis := analysis, diagnostics := ds })] }
      uri content
    simp only [lspServer.OnDidChangeTextDocument, hpath, lspServer.ReadFileContent, hread, hn,
      lspServer.AnalyseDocument, hidx, hb, lspServer.StoreAnalysis,
      LspDocuments.StoreAnalysis, hd, hp, lspServer.UpdateDiagnostics,
      LspDocuments.UpdateDiagnostics, Function.update_same, Function.update_idem]
    rw [NotifyGeneratedCode_attached env _ c (lit "analysisDone") (lit "AnalysisDone")
      doneBytes (by rw [hc2]; exact hconn) hdone]

set_option maxRecDepth 8000 in
/-- The lifecycle notifications on a server with a connection attached and the document
`file:///a.c` stored with text `int x;`: the document is opened with a new text, and it is
saved and changed while its file still holds `int x;`. -/
theorem lifecycle_notifications_witness :
    lspServer.seeded.OnDidOpenTextDocument Env.unchangedFile (lit "file:///a.c") (lit "int y;")
      = lspServer.updateDocumentStore Env.unchangedFile
          { lspServer.seeded with
            trace := lspServer.seeded.trace ++ [Event.Write (⟨0, 1⟩ : Conn).writer startedFrame] }
          (lit "file:///a.c") (lit "int y;")
    ∧ lspServer.seeded.OnDidSaveTextDocument Env.unchangedFile (lit "file:///a.c")
      = lspServer.updateDocumentStore Env.unchangedFile
          { lspServer.seeded with
            trace := lspServer.seeded.trace ++ [Event.ReadFile (lit "/a.c")] }
          (lit "file:///a.c") (lit "int x;")
    ∧ (lspServer.seeded.OnDidChangeTextDocument Env.unchangedFile (lit "file:///a.c")).2.trace
      = [Event.ReadFile (lit "/a.c"), Event.Write 1 startedFrame,
         Event.AnalyseDocument (lit "file:///a.c") (lit "int x;"),
         Event.StoreAnalysis (lit "file:///a.c") (lit "[]"),
         Event.UpdateDiagnostics (lit "file:///a.c") [],
         Event.Store (lit "file:///a.c") (lit "int x;"), Event.Write 1 doneFrame] :=
  ⟨(lifecycle_notifications Env.unchangedFile lspServer.seeded (lit "file:///a.c")
      (lit "int y;") ⟨0, 1⟩ startedFrame doneFrame rfl rfl rfl).1,
   (lifecycle_notifications Env.unchangedFile lspServer.seeded (lit "file:///a.c")
      (lit "int y;") ⟨0, 1⟩ startedFrame doneFrame rfl rfl rfl).2.1 (lit "/a.c")
      (lit "int x;") rfl rfl (by decide),
   ((lifecycle_notifications Env.unchangedFile lspServer.seeded (lit "file:///a.c")
      (lit "int y;") ⟨0, 1⟩ startedFrame doneFrame rfl rfl rfl).2.2 (lit "/a.c")
      (lit "int x;") (lit "[]") []
      { text := lit "int x;", analysis := lit "ok", diagnostics := [exampleDiagnostic] }
      rfl rfl rfl (by decide) rfl).trans rfl⟩

/-! ## Closing the connection -/

/-- C19 fails on `Conn.Close`: for every connection, `Conn.Close` calls `Close` on the reader
twice and never on the writer; its result combines the two results of the reader. The rest
of the claim holds: `Shutdown` detaches the connection, and a second `Shutdown` makes no
call and leaves the server as the first left it. -/
theorem Conn_Close_closes_reader_twice (c : Conn) (t : List Event) :
    (c.Close env.ReaderClose t).2 = t ++ [Event.ReaderClose c.reader, Event.ReaderClose c.reader]
    ∧ writerCloseCalls (c.Close env.ReaderClose t).2 = writerCloseCalls t
    ∧ readerCloseCalls (c.Close env.ReaderClose t).2
      = readerCloseCalls t ++ [c.reader, c.reader]
    ∧ (l.conn = some c →
        (l.Shutdown env).trace
          = l.trace ++ [Event.ReaderClose c.reader, Event.ReaderClose c.reader])
    ∧ (l.Shutdown env).conn = none
    ∧ (l.Shutdown env).Shutdown env = l.Shutdown env := by
  have hrun : (c.Close env.ReaderClose t).2
      = t ++ [Event.ReaderClose c.reader, Event.ReaderClose c.reader] := by
    unfold Conn.Close
    simp only
    split <;> simp
  refine ⟨hrun, ?_, ?_, ?_, ?_, ?_⟩
  · rw [hrun]; simp [writerCloseCalls, Event.writerCloseArg]
  · rw [hrun]; simp [readerCloseCalls, Event.readerCloseArg]
  · intro hc
    have hrun2 : ∀ t2 : List Event, (c.Close env.ReaderClose t2).2
        = t2 ++ [Event.ReaderClose c.reader, Event.ReaderClose c.reader] := by
      intro t2
      unfold Conn.Close
      simp only
      split <;> simp
    simp [lspServer.Shutdown, hc, hrun2]
  · unfold lspServer.Shutdown
    cases h : l.conn with
    | none => exact h
    | some c2 => rfl
  · have hnone : (l.Shutdown env).conn = none := by
      unfold lspServer.Shutdown
      cases h : l.conn with
      | none => exact h
      | some c2 => rfl
    generalize l.Shutdown env = l2 at hnone
    unfold lspServer.Shutdown
    rw [hnone]

/-- C19 evaluated on the connection with reader 0 and writer 1: `Shutdown` closes reader 0
twice and writer 1 never. -/
theorem Shutdown_never_closes_writer :
    lspServer.fresh.conn = some ⟨0, 1⟩
    ∧ (lspServer.fresh.Shutdown Env.basic).trace = [Event.ReaderClose 0, Event.ReaderClose 0]
    ∧ writerCloseCalls (lspServer.fresh.Shutdown Env.basic).trace = []
    ∧ (lspServer.fresh.Shutdown Env.basic).conn = none
    ∧ ((lspServer.fresh.Shutdown Env.basic).Shutdown Env.basic).trace
      = [Event.ReaderClose 0, Event.ReaderClose 0] := by
  refine ⟨rfl, by decide, by decide, by decide, by decide⟩

end Claims

end FuzzLSP
